import Mathlib

/-!
Verification development for the ClickTok product discovery engine
(`src/product_fetcher.py`, class `ProductFetcher`).

The Python module is shallowly embedded below.  Python floats are modelled as
exact rationals (`ℚ`); Python's `round(x, n)` (round-half-to-even) is
`round_to`; `int(x)` on a float is truncation toward zero (`pyInt`).
Machine-level float rounding is not modelled; all concrete inputs used in the
theorems are chosen away from representation knife edges, so the rational
model and CPython agree on them.

Browser/network interaction is modelled as environment data: a fetch call is a
pure function of an `Env` that records what the official API responded and
which page snapshots each navigation episode produced.  The caller-supplied
`on_product_found` callback is modelled as a function into `Except CbErr Unit`
whose outcome the code discards (mirroring the `try/except: pass` blocks in
the source); every embedded fetch function additionally returns the ordered
list of products that were passed to the callback.
-/

set_option allowUnsafeReducibility true
attribute [semireducible] Rat.mul Rat.add Rat.sub Rat.inv Rat.div Rat.neg Rat.ofScientific
set_option maxRecDepth 4000

/-- `str.upper()` (over the code points; the inputs here are ASCII). -/
def strUpper (s : String) : String := String.mk (s.data.map Char.toUpper)

/-- `str.lower()` (over the code points; the inputs here are ASCII). -/
def strLower (s : String) : String := String.mk (s.data.map Char.toLower)

/-- `str.strip()`: drop whitespace from both ends. -/
def strTrim (s : String) : String :=
  String.mk (((s.data.dropWhile Char.isWhitespace).reverse.dropWhile
    Char.isWhitespace).reverse)

/-- `str.replace(ch, '')`: remove every occurrence of one character (the only
replacement shape the fetcher uses). -/
def removeChar (ch : Char) (s : String) : String :=
  String.mk (s.data.filter (fun c => c ≠ ch))

/-- One step list of `str.split(sep)` with explicit fuel (the fuel is the
input length, which bounds the number of steps; structural recursion keeps
every later evaluation kernel-reducible). -/
def splitOnAux (sep : List Char) : ℕ → List Char → List Char → List (List Char)
  | 0, cs, acc => [acc.reverse ++ cs]
  | _ + 1, [], acc => [acc.reverse]
  | fuel + 1, c :: rest, acc =>
    if sep.isPrefixOf (c :: rest) then
      acc.reverse :: splitOnAux sep fuel ((c :: rest).drop sep.length) []
    else splitOnAux sep fuel rest (c :: acc)

/-- `str.split(sep)` for a non-empty separator. -/
def strSplitOn (s sep : String) : List String :=
  if sep.data.isEmpty then [s]
  else (splitOnAux sep.data s.data.length s.data []).map String.mk

/-- Python's `round` to an integer: round half to even (banker's rounding). -/
def pyRound (q : ℚ) : ℤ :=
  let f := q.floor
  let r := q - (f : ℚ)
  if r < 1/2 then f
  else if 1/2 < r then f + 1
  else if f % 2 = 0 then f else f + 1

/-- Python's `round(q, n)` for a nonnegative digit count `n`. -/
def round_to (n : ℕ) (q : ℚ) : ℚ :=
  (pyRound (q * 10 ^ n) : ℚ) / 10 ^ n

/-- `round(q, 2)`, as used throughout the fetcher for money amounts. -/
def round2 (q : ℚ) : ℚ := round_to 2 q

/-- `round(q, 1)`, used for ratings. -/
def round1 (q : ℚ) : ℚ := round_to 1 q

/-- Python's `int()` applied to a float: truncation toward zero. -/
def pyInt (q : ℚ) : ℤ :=
  if q < 0 then -((-q).floor) else q.floor

/-- Numeric value of a digit string (most significant first). -/
def digitsToNat (ds : List Char) : ℕ :=
  ds.foldl (fun acc c => acc * 10 + (c.toNat - 48)) 0

/-- Models Python `float(s)` on plain decimal literals: optional surrounding
whitespace, optional sign, digits with an optional fractional part.  Returns
`none` where CPython raises `ValueError`.  (Exponents, `inf`/`nan` and
underscore separators are outside the fragment the fetcher can feed it.) -/
def pyFloat (s : String) : Option ℚ :=
  let cs := (strTrim s).data
  let signAndRest : ℚ × List Char :=
    match cs with
    | '-' :: rest => (-1, rest)
    | '+' :: rest => (1, rest)
    | _ => (1, cs)
  let sign := signAndRest.1
  let body := signAndRest.2
  let intPart := body.takeWhile Char.isDigit
  let rest := body.dropWhile Char.isDigit
  match rest with
  | [] =>
    if intPart.isEmpty then none
    else some (sign * (digitsToNat intPart : ℚ))
  | '.' :: rest2 =>
    let fracPart := rest2.takeWhile Char.isDigit
    let rest3 := rest2.dropWhile Char.isDigit
    if rest3.isEmpty && (intPart.length + fracPart.length ≠ 0) then
      some (sign * ((digitsToNat intPart : ℚ)
        + (digitsToNat fracPart : ℚ) / 10 ^ fracPart.length))
    else none
  | _ => none

/-- `random.uniform(a, b) = a + (b - a) * random()` with `random() ∈ [0, 1)`. -/
def uniform (a b r : ℚ) : ℚ := a + (b - a) * r

/-- Substring test on character lists (`needle in hay` for Python strings). -/
def listContainsSub (needle : List Char) : List Char → Bool
  | [] => needle.isEmpty
  | c :: rest => needle.isPrefixOf (c :: rest) || listContainsSub needle rest

/-- Python's `needle in hay` on strings. -/
def strContainsSub (hay needle : String) : Bool :=
  listContainsSub needle.data hay.data

/-- Case-insensitive literal match at the head of a character list. -/
def ciIsPrefix (pat : String) (cs : List Char) : Bool :=
  (pat.data.map Char.toLower).isPrefixOf (cs.map Char.toLower)

/-- `f"{n:04d}"`: decimal rendering of `n` left-padded with zeros to width 4. -/
def pad4 (n : ℕ) : String :=
  let s := toString n
  String.mk (List.replicate (4 - s.length) '0') ++ s

/-- Canonical caller-visible product record (the dicts built by the fetcher).
Paths that never set a `sales_count` key are modelled with `none`. -/
structure Product where
  product_id : String
  name : String
  description : String
  price : ℚ
  commission_rate : ℚ
  commission_amount : ℚ
  category : String
  rating : ℚ
  image_url : String
  product_url : String
  affiliate_link : String
  sales_count : Option ℤ
deriving DecidableEq, Repr

/-- The `filters` dict handed to `ProductFetcher`; absent keys are `none`
(the source reads them with `filters.get(key, default)`). -/
structure Filters where
  min_price : Option ℚ
  max_price : Option ℚ
  min_commission_rate : Option ℚ
  min_rating : Option ℚ
  categories : Option (List String)
deriving DecidableEq, Repr

/-- `ProductFetcher._meets_criteria`. -/
def meets_criteria (filters : Filters) (price commission_rate rating : ℚ) : Bool :=
  if price < filters.min_price.getD 0 then false
  else if filters.max_price.getD 1000 < price then false
  else if commission_rate < filters.min_commission_rate.getD 0 then false
  else if rating < filters.min_rating.getD 0 then false
  else true

/-- The credential dict: the `tiktok_shop_api` triple plus
`credentials['tiktok']['affiliate_id']` (absent → `none`). -/
structure Credentials where
  app_key : String
  app_secret : String
  access_token : String
  tiktok_affiliate_id : Option String
deriving DecidableEq, Repr

/-- `ProductFetcher._has_api_credentials`. -/
def has_api_credentials (c : Credentials) : Bool :=
  c.app_key ≠ "" && c.app_secret ≠ "" && c.access_token ≠ ""

/-- `ProductFetcher._generate_affiliate_link`. -/
def generate_affiliate_link (c : Credentials) (product_id : String) : String :=
  "https://www.tiktok.com/shop/product/" ++ product_id ++ "?affiliate="
    ++ c.tiktok_affiliate_id.getD "YOUR_ID"

/-- The sort key of `_sort_by_sales`: `p.get('sales_count', 0)`. -/
def salesKey (p : Product) : ℤ := p.sales_count.getD 0

/-- Insert into a descending-by-`salesKey` list, after all strictly greater
keys and before all equal or smaller ones (the placement a stable descending
sort gives an element that precedes the rest of the input). -/
def insertDesc (p : Product) : List Product → List Product
  | [] => [p]
  | q :: qs => if salesKey q ≤ salesKey p then p :: q :: qs else q :: insertDesc p qs

/-- `ProductFetcher._sort_by_sales`: Python's
`sorted(products, key=lambda p: p.get('sales_count', 0), reverse=True)`,
i.e. the stable descending sort by `salesKey` (any stable sort computes the
same list; insertion sort is used here). -/
def sort_by_sales : List Product → List Product
  | [] => []
  | p :: ps => insertDesc p (sort_by_sales ps)

/-- The deduplication key of `_extract_products_from_page`:
`p.get('product_id') or p.get('name', '')` (empty id falls back to name). -/
def dedupKey (p : Product) : String :=
  if p.product_id ≠ "" then p.product_id else p.name

/-- The dedup loop of `_extract_products_from_page` (lines 839–847), with the
`seen_ids` set threaded explicitly: keep a product when its key is non-empty
and unseen. -/
def dedup_go : List Product → List String → List Product
  | [], _ => []
  | p :: rest, seen =>
    let pid := dedupKey p
    if pid ≠ "" && !(seen.contains pid) then p :: dedup_go rest (pid :: seen)
    else dedup_go rest seen

/-- Duplicate removal over one page's raw extraction results. -/
def dedup_products (ps : List Product) : List Product :=
  dedup_go ps []

/-- `ProductFetcher._parse_count`: parse `'10K'`, `'1.5M'`, `'500'`;
any exception yields `0`. -/
def parse_count (text : String) : ℤ :=
  let t := removeChar ',' (strUpper (strTrim text))
  if t.data.contains 'K' then
    match pyFloat (removeChar 'K' t) with
    | some q => pyInt (q * 1000)
    | none => 0
  else if t.data.contains 'M' then
    match pyFloat (removeChar 'M' t) with
    | some q => pyInt (q * 1000000)
    | none => 0
  else if t.data.contains 'B' then
    match pyFloat (removeChar 'B' t) with
    | some q => pyInt (q * 1000000000)
    | none => 0
  else
    match pyFloat t with
    | some q => pyInt q
    | none => 0

/-- Scan a character list left to right and return the first position's match
(the `re.search` leftmost-match rule, for a matcher that decides whether the
pattern matches starting at a given position). -/
def scanFirst (m : List Char → Option (List Char)) : List Char → Option (List Char)
  | [] => none
  | c :: rest =>
    match m (c :: rest) with
    | some g => some g
    | none => scanFirst m rest

/-- Strip a case-insensitive literal from the head of a character list. -/
def stripCIPrefix (pat : String) (cs : List Char) : Option (List Char) :=
  if ciIsPrefix pat cs then some (cs.drop pat.length) else none

/-- Continuation of sales pattern 1 after the count token:
`\s*(?:sold|sales|bought|purchases)` under `re.IGNORECASE`. -/
def sales1cont (cs : List Char) : Bool :=
  let ws := cs.dropWhile Char.isWhitespace
  ciIsPrefix "sold" ws || ciIsPrefix "sales" ws || ciIsPrefix "bought" ws
    || ciIsPrefix "purchases" ws

/-- Match of `(\d+[KMB]?)\s*(?:sold|sales|bought|purchases)` (IGNORECASE)
anchored at the head, returning the captured group.  `\d+` only succeeds on
its maximal run (shorter runs leave a digit where a letter is required);
`[KMB]?` is greedy but backtracks to empty when consuming the letter starves
the literal (e.g. `12bought`). -/
def matchSales1At (cs : List Char) : Option (List Char) :=
  let ds := cs.takeWhile Char.isDigit
  if ds.isEmpty then none
  else
    let rest := cs.dropWhile Char.isDigit
    match rest with
    | c :: r2 =>
      if (c.toUpper = 'K' || c.toUpper = 'M' || c.toUpper = 'B') && sales1cont r2 then
        some (ds ++ [c])
      else if sales1cont rest then some ds
      else none
    | [] => none

/-- Match of `(?:sold|sales|bought):\s*(\d+[KMB]?)` (IGNORECASE) anchored at
the head, returning the captured group. -/
def matchSales2At (cs : List Char) : Option (List Char) :=
  let afterLit : Option (List Char) :=
    match stripCIPrefix "sold" cs with
    | some r => some r
    | none =>
      match stripCIPrefix "sales" cs with
      | some r => some r
      | none => stripCIPrefix "bought" cs
  match afterLit with
  | none => none
  | some r =>
    match r with
    | ':' :: r2 =>
      let r3 := r2.dropWhile Char.isWhitespace
      let ds := r3.takeWhile Char.isDigit
      if ds.isEmpty then none
      else
        match r3.dropWhile Char.isDigit with
        | c :: _ =>
          if c.toUpper = 'K' || c.toUpper = 'M' || c.toUpper = 'B' then some (ds ++ [c])
          else some ds
        | [] => some ds
    | _ => none

/-- Continuation of sales pattern 3: `\s*(?:units?|items?)` (IGNORECASE);
the optional trailing `s` always matches. -/
def sales3cont (cs : List Char) : Bool :=
  let ws := cs.dropWhile Char.isWhitespace
  ciIsPrefix "unit" ws || ciIsPrefix "item" ws

/-- Match of `(\d+[KMB]?)\s*(?:units?|items?)` (IGNORECASE) anchored at the
head, returning the captured group. -/
def matchSales3At (cs : List Char) : Option (List Char) :=
  let ds := cs.takeWhile Char.isDigit
  if ds.isEmpty then none
  else
    let rest := cs.dropWhile Char.isDigit
    match rest with
    | c :: r2 =>
      if (c.toUpper = 'K' || c.toUpper = 'M' || c.toUpper = 'B') && sales3cont r2 then
        some (ds ++ [c])
      else if sales3cont rest then some ds
      else none
    | [] => none

/-- The sales-count token loop of `_extract_from_link_and_text`
(lines 1136–1147): try the three `sales_patterns` in order, parse the first
match with `_parse_count`, default `0`. -/
def extract_sales_count (text : String) : ℤ :=
  match scanFirst matchSales1At text.data with
  | some tok => parse_count (String.mk tok)
  | none =>
    match scanFirst matchSales2At text.data with
    | some tok => parse_count (String.mk tok)
    | none =>
      match scanFirst matchSales3At text.data with
      | some tok => parse_count (String.mk tok)
      | none => 0

/-- Match of the price group of `\$?(\d+\.?\d*)` anchored where a digit run
starts (the optional `\$` never changes the group), returning the group:
maximal digits, an optional dot, maximal following digits. -/
def searchPriceNum : List Char → Option (List Char)
  | [] => none
  | c :: rest =>
    if c.isDigit then
      let ds := (c :: rest).takeWhile Char.isDigit
      match (c :: rest).dropWhile Char.isDigit with
      | '.' :: r2 => some (ds ++ '.' :: r2.takeWhile Char.isDigit)
      | _ => some ds
    else searchPriceNum rest

/-- `ProductFetcher._extract_from_link_and_text`: build a product from a
`/shop/product/` link target and the surrounding container text. -/
def extract_from_link_and_text (c : Credentials) (href text : String) : Option Product := do
  let product_id := (strSplitOn ((strSplitOn href "/shop/product/").getLastD "") "?").headD ""
  if product_id = "" then none
  else
    let price : ℚ ←
      match searchPriceNum text.data with
      | some g => pyFloat (String.mk g)
      | none => some 0
    let lines := ((strSplitOn text "\n").map strTrim).filter (· ≠ "")
    let name := lines.headD ("Product " ++ product_id)
    let sales_count := extract_sales_count text
    some { product_id := product_id
           name := name
           description := ""
           price := round2 price
           commission_rate := 10.0
           commission_amount := round2 (price * 0.10)
           category := "General"
           rating := 4.0
           image_url := ""
           product_url := if "http".data.isPrefixOf href.data then href
                          else "https://www.tiktok.com" ++ href
           affiliate_link := generate_affiliate_link c product_id
           sales_count := some sales_count }

/-- One DOM element matched by a product-card selector in strategy 2 of
`_extract_products_from_page`: the product link it resolves to (via an inner
`a[href*="/shop/product/"]` or its own `href`), its `title` attribute, its
rendered text, and its image source. -/
structure CardElem where
  href : Option String
  title : Option String
  text : String
  img_src : Option String
deriving DecidableEq, Repr

/-- `ProductFetcher._parse_product_element`. -/
def parse_product_element (c : Credentials) (e : CardElem) : Option Product := do
  match e.href with
  | none => none
  | some href =>
    if !strContainsSub href "/shop/product/" then none
    else
      let product_id := (strSplitOn ((strSplitOn href "/shop/product/").getLastD "") "?").headD ""
      let price : ℚ ←
        match searchPriceNum e.text.data with
        | some g => pyFloat (String.mk g)
        | none => some 0
      let fallback_name :=
        if e.text ≠ "" then strTrim ((strSplitOn e.text "\n").headD "")
        else "Product " ++ product_id
      let name :=
        match e.title with
        | some t => if t ≠ "" then t else fallback_name
        | none => fallback_name
      some { product_id := product_id
             name := name
             description := ""
             price := round2 price
             commission_rate := 10.0
             commission_amount := round2 (price * 0.10)
             category := "General"
             rating := 4.0
             image_url := e.img_src.getD ""
             product_url := if "http".data.isPrefixOf href.data then href
                            else "https://www.tiktok.com" ++ href
             affiliate_link := generate_affiliate_link c product_id
             sales_count := some 0 }

/-- The character class `[a-zA-Z\s]` of the video-link name pattern. -/
def nameClassChar (ch : Char) : Bool := ch.isAlpha || ch.isWhitespace

/-- Continuation `(?:\s*[-$]|\s*PHP|\s*₱|$)` of the name pattern
(IGNORECASE); the `$` anchor is modelled as end of input. -/
def nameContOK (cs : List Char) : Bool :=
  cs.isEmpty ||
    (let ws := cs.dropWhile Char.isWhitespace
     match ws with
     | ch :: _ => ch = '-' || ch = '$' || ciIsPrefix "php" ws || ch = '₱'
     | [] => false)

/-- Lazy extension of the name group `[A-Z][a-zA-Z\s]+?`: grow one class
character at a time and stop at the first point where the continuation
matches. -/
def lazyExtend (acc : List Char) : List Char → Option (List Char)
  | [] => none
  | d :: rest =>
    if !nameClassChar d then none
    else if nameContOK rest then some (acc ++ [d])
    else lazyExtend (acc ++ [d]) rest

/-- Match of `(?:Buy|Get|Shop|Product)\s+([A-Z][a-zA-Z\s]+?)(?:...)`
(IGNORECASE) anchored at the head, returning the captured name group. -/
def matchNameAt (cs : List Char) : Option (List Char) :=
  let afterKw : Option (List Char) :=
    match stripCIPrefix "buy" cs with
    | some r => some r
    | none =>
      match stripCIPrefix "get" cs with
      | some r => some r
      | none =>
        match stripCIPrefix "shop" cs with
        | some r => some r
        | none => stripCIPrefix "product" cs
  match afterKw with
  | none => none
  | some r =>
    if (r.takeWhile Char.isWhitespace).isEmpty then none
    else
      match r.dropWhile Char.isWhitespace with
      | ch :: rest => if ch.isAlpha then lazyExtend [ch] rest else none
      | [] => none

/-- Match of the price group of `(?:PHP|₱|\$)\s*([\d,]+\.?\d*)`
(case-sensitive) anchored at the head. -/
def matchPHPriceAt (cs : List Char) : Option (List Char) :=
  let afterCur : Option (List Char) :=
    if "PHP".data.isPrefixOf cs then some (cs.drop 3)
    else
      match cs with
      | '₱' :: r => some r
      | '$' :: r => some r
      | _ => none
  match afterCur with
  | none => none
  | some r =>
    let r2 := r.dropWhile Char.isWhitespace
    let ds := r2.takeWhile (fun ch => ch.isDigit || ch = ',')
    if ds.isEmpty then none
    else
      match r2.dropWhile (fun ch => ch.isDigit || ch = ',') with
      | '.' :: r4 => some (ds ++ '.' :: r4.takeWhile Char.isDigit)
      | _ => some ds

/-- `ProductFetcher._extract_product_from_video_link`.  `abs(hash(url))`
depends on CPython's randomized string hashing, so the hash function is an
environment parameter. -/
def extract_product_from_video_link (pyHash : String → ℤ)
    (video_url context_text : String) : Option Product :=
  let name :=
    match scanFirst matchNameAt context_text.data with
    | some g => strTrim (String.mk g)
    | none => "Trending Product"
  let price : ℚ :=
    match scanFirst matchPHPriceAt context_text.data with
    | some g =>
      match pyFloat (removeChar ',' (String.mk g)) with
      | some v => if 100 < v then v / 56 else v
      | none => 10.0
    | none => 10.0
  let product_id := "AUTO_" ++ toString ((pyHash video_url).natAbs % 100000)
  some { product_id := product_id
         name := String.mk (name.data.take 100)
         description := "Auto-extracted from trending TikTok video"
         price := round2 price
         commission_rate := 10.0
         commission_amount := round2 (price * 0.10)
         category := "General"
         rating := 4.5
         image_url := ""
         product_url := video_url
         affiliate_link := video_url
         sales_count := some 100 }

/-- A parsed JSON value, as produced by `json.loads` in strategy 1 of
`_extract_products_from_page`.  `json.loads` yields Python `int` or `float`
for numbers, so the two are distinguished. -/
inductive JsonVal where
  | null
  | bool (b : Bool)
  | int (n : ℤ)
  | float (q : ℚ)
  | str (s : String)
  | arr (items : List JsonVal)
  | obj (fields : List (String × JsonVal))

/-- Python truthiness of a JSON value. -/
def truthy : JsonVal → Bool
  | .null => false
  | .bool b => b
  | .int n => n ≠ 0
  | .float q => q ≠ 0
  | .str s => s ≠ ""
  | .arr items => !items.isEmpty
  | .obj fields => !fields.isEmpty

/-- `obj.get(key)`: first binding of the key (dict keys are unique). -/
def jGet (fields : List (String × JsonVal)) (key : String) : Option JsonVal :=
  (fields.find? (fun kv => kv.1 = key)).map (fun kv => kv.2)

/-- `a or b or ... or default` over `obj.get` results: the first truthy
value, else the default. -/
def pyOrChain (xs : List (Option JsonVal)) (default : JsonVal) : JsonVal :=
  match xs with
  | [] => default
  | a :: rest =>
    match a with
    | some v => if truthy v then v else pyOrChain rest default
    | none => pyOrChain rest default

/-- `a or b or ...` over `obj.get` results with no final default: the first
truthy value, if any. -/
def pyOrFirst (xs : List (Option JsonVal)) : Option JsonVal :=
  match xs with
  | [] => none
  | a :: rest =>
    match a with
    | some v => if truthy v then some v else pyOrFirst rest
    | none => pyOrFirst rest

/-- Python `str()` of a JSON value.  The rendering of non-integral floats and
of containers is abstracted (no theorem depends on it); strings, integers,
booleans and `None` render exactly. -/
def pyStr : JsonVal → String
  | .str s => s
  | .int n => toString n
  | .bool b => if b then "True" else "False"
  | .null => "None"
  | .float q => if q.den = 1 then toString q.num ++ ".0" else "float:" ++ toString q.num
  | .arr _ => "list"
  | .obj _ => "dict"

/-- Python `float()` applied to a JSON value; `none` where CPython raises. -/
def pyFloatOfVal : JsonVal → Option ℚ
  | .int n => some (n : ℚ)
  | .float q => some q
  | .bool b => some (if b then 1 else 0)
  | .str s => pyFloat s
  | .null => none
  | .arr _ => none
  | .obj _ => none

/-- Python `int()` applied to a JSON value; `none` where CPython raises.
`int()` on a string accepts only (signed) integer literals. -/
def pyIntOfVal : JsonVal → Option ℤ
  | .int n => some n
  | .float q => some (pyInt q)
  | .bool b => some (if b then 1 else 0)
  | .str s =>
    let cs := (strTrim s).data
    let body := match cs with
      | '-' :: rest => rest
      | '+' :: rest => rest
      | _ => cs
    if !body.isEmpty && body.all Char.isDigit then
      match pyFloat s with
      | some q => some (pyInt q)
      | none => none
    else none
  | .null => none
  | .arr _ => none
  | .obj _ => none

/-- The product-id extraction of `_json_to_product`: the `or`-chain over
`productId`/`product_id`/`id`/`itemId` with fallback `str(obj.get('skuId',
''))`, then `if not product_id: return None`. -/
def json_pid_str (o : List (String × JsonVal)) : Option String :=
  match pyOrFirst [jGet o "productId", jGet o "product_id", jGet o "id", jGet o "itemId"] with
  | some v => some (pyStr v)
  | none =>
    let s := pyStr ((jGet o "skuId").getD (JsonVal.str ""))
    if s = "" then none else some s

/-- The raw price extraction of `_json_to_product` (before rounding);
`none` where `float()` raises. -/
def json_price_of (o : List (String × JsonVal)) : Option ℚ :=
  let price_data := pyOrChain [jGet o "price", jGet o "priceInfo"] (JsonVal.obj [])
  match price_data with
  | .obj fields =>
    let inner := (jGet fields "value").getD ((jGet fields "amount").getD (JsonVal.int 0))
    pyFloatOfVal (if truthy inner then inner else JsonVal.int 0)
  | v => pyFloatOfVal (if truthy v then v else JsonVal.int 0)

/-- The sales extraction of `_json_to_product`: strings go through
`_parse_count`, other values through `int(x or 0)`. -/
def json_sales_of (o : List (String × JsonVal)) : Option ℤ :=
  let sales_data := pyOrChain
    [jGet o "salesCount", jGet o "unitsSold", jGet o "sold", jGet o "sales", jGet o "volume"]
    (JsonVal.int 0)
  match sales_data with
  | .str s => some (parse_count s)
  | v => pyIntOfVal (if truthy v then v else JsonVal.int 0)

/-- The raw rating extraction of `_json_to_product` (before rounding). -/
def json_rating_of (o : List (String × JsonVal)) : Option ℚ :=
  pyFloatOfVal (pyOrChain [jGet o "rating", jGet o "averageRating", jGet o "score"]
    (JsonVal.int 0))

/-- The raw commission-rate extraction of `_json_to_product` (before
rounding): `float(commissionRate or commission or get('affiliateRate', 10))`. -/
def json_rate_of (o : List (String × JsonVal)) : Option ℚ :=
  match pyOrFirst [jGet o "commissionRate", jGet o "commission"] with
  | some v => pyFloatOfVal v
  | none => pyFloatOfVal ((jGet o "affiliateRate").getD (JsonVal.int 10))

/-- The image extraction of `_json_to_product`; `none` where `.get` is
called on a non-dict list element and raises. -/
def json_image_of (o : List (String × JsonVal)) : Option String :=
  let images := pyOrChain [jGet o "images", jGet o "imageUrls", jGet o "gallery"]
    (JsonVal.arr [])
  match images with
  | .arr (x :: _) =>
    match x with
    | .str s => some s
    | .obj fields =>
      some (match jGet fields "url" with
            | some v => pyStr v
            | none => "")
    | _ => none
  | .arr [] => some ""
  | .str s => some s
  | _ => some ""

/-- The category extraction of `_json_to_product` (a list keeps its last
element). -/
def json_category_of (o : List (String × JsonVal)) : String :=
  match pyOrChain [jGet o "category", jGet o "categoryName", jGet o "categoryPath"]
    (JsonVal.str "General") with
  | .arr items =>
    match items.getLast? with
    | some v => pyStr v
    | none => "General"
  | v => pyStr v

/-- The product-url normalization of `_json_to_product`; `none` where
`.startswith` is called on a truthy non-string and raises. -/
def json_url_of (o : List (String × JsonVal)) (pidStr : String) : Option String :=
  match pyOrFirst [jGet o "url", jGet o "productUrl", jGet o "link"] with
  | none => some ("https://www.tiktok.com/shop/product/" ++ pidStr)
  | some (.str s) =>
    if "http".data.isPrefixOf s.data then some s
    else if "/".data.isPrefixOf s.data then some ("https://www.tiktok.com" ++ s)
    else some ("https://www.tiktok.com/shop/product/" ++ pidStr)
  | some _ => none

/-- The name extraction of `_json_to_product`. -/
def json_name_of (o : List (String × JsonVal)) (pidStr : String) : String :=
  match pyOrFirst [jGet o "title", jGet o "name", jGet o "productName", jGet o "displayName"] with
  | some v => pyStr v
  | none => "Product " ++ pidStr

/-- The description extraction of `_json_to_product`. -/
def json_description_of (o : List (String × JsonVal)) : String :=
  match pyOrFirst [jGet o "description", jGet o "desc"] with
  | some v => pyStr v
  | none => ""

/-- `ProductFetcher._json_to_product`: convert a JSON object to a product
dict; any exception yields `None`. -/
def json_to_product (c : Credentials) (o : List (String × JsonVal)) : Option Product := do
  let pidStr ← json_pid_str o
  let price ← json_price_of o
  let sales ← json_sales_of o
  let rating ← json_rating_of o
  let commission_rate ← json_rate_of o
  let image_url ← json_image_of o
  let product_url ← json_url_of o pidStr
  some { product_id := pidStr
         name := json_name_of o pidStr
         description := json_description_of o
         price := round2 price
         commission_rate := round2 commission_rate
         commission_amount := round2 (price * commission_rate / 100)
         category := json_category_of o
         rating := round1 rating
         image_url := image_url
         product_url := product_url
         affiliate_link := generate_affiliate_link c pidStr
         sales_count := some sales }

/-- The "looks like a product object" shape test of `_parse_embedded_json`:
`any(key in obj for key in ['productId', 'product_id', 'id', 'name', 'price'])`. -/
def looks_like_product (fields : List (String × JsonVal)) : Bool :=
  (jGet fields "productId").isSome || (jGet fields "product_id").isSome
    || (jGet fields "id").isSome || (jGet fields "name").isSome
    || (jGet fields "price").isSome

/-- Container keys that `find_products` always recurses into. -/
def containerKeys : List String := ["products", "items", "data", "list", "results"]

mutual

/-- The recursive visitor `find_products` inside `_parse_embedded_json`:
emit a product for every object that looks like one, then recurse into
nested containers (in field order). -/
def find_products (c : Credentials) : JsonVal → List Product
  | .obj fields =>
    (if looks_like_product fields then (json_to_product c fields).toList else [])
      ++ find_products_fields c fields
  | .arr items => find_products_list c items
  | _ => []

/-- Field-wise recursion of `find_products` over a JSON object. -/
def find_products_fields (c : Credentials) : List (String × JsonVal) → List Product
  | [] => []
  | kv :: rest =>
    (if containerKeys.contains (strLower kv.1) then find_products c kv.2
     else
       match kv.2 with
       | .obj _ => find_products c kv.2
       | .arr _ => find_products c kv.2
       | _ => []) ++ find_products_fields c rest

/-- Element-wise recursion of `find_products` over a JSON array. -/
def find_products_list (c : Credentials) : List JsonVal → List Product
  | [] => []
  | v :: rest => find_products c v ++ find_products_list c rest

end

/-- `ProductFetcher._parse_embedded_json`. -/
def parse_embedded_json (c : Credentials) (data : JsonVal) : List Product :=
  find_products c data

/-- Error raised by the caller-supplied `on_product_found` callback. -/
inductive CbErr
  | err
deriving DecidableEq, Repr

/-- The `on_product_found` callback: may raise (`Except.error`). -/
abbrev Callback := Product → Except CbErr Unit

/-- The `try: on_product_found(product) except: pass` wrapper: the outcome is
discarded whichever it is. -/
def swallow (e : Except CbErr Unit) : Unit :=
  match e with
  | .ok _ => ()
  | .error _ => ()

/-- One raw item of the official API response (`data.products`).  Absent keys
are modelled by their `item.get` defaults (the claims' inputs always carry the
relevant keys); `image_url` is the collapsed
`item.get('images', [{}])[0].get('url', '')`. -/
structure ApiItem where
  product_id : String
  product_name : String
  description : String
  price : ℚ
  commission_rate : ℚ
  rating : ℚ
  category_name : String
  image_url : String
  product_url : String
deriving DecidableEq, Repr

/-- The product dict built for one accepted API item in
`_parse_api_products`: `commission_amount = price * (commission_rate / 100)`
with no rounding, `sales_count` key absent. -/
def api_item_to_product (c : Credentials) (item : ApiItem) : Product :=
  { product_id := item.product_id
    name := item.product_name
    description := item.description
    price := item.price
    commission_rate := item.commission_rate
    commission_amount := item.price * (item.commission_rate / 100)
    category := item.category_name
    rating := item.rating
    image_url := item.image_url
    product_url := item.product_url
    affiliate_link := generate_affiliate_link c item.product_id
    sales_count := none }

/-- `ProductFetcher._parse_api_products`: filter by `_meets_criteria`, keep
response order, no truncation, no deduplication. -/
def parse_api_products (fl : Filters) (c : Credentials) : List ApiItem → List Product
  | [] => []
  | item :: rest =>
    if meets_criteria fl item.price item.commission_rate item.rating then
      api_item_to_product c item :: parse_api_products fl c rest
    else parse_api_products fl c rest

/-- The decoded JSON envelope of the official API response. -/
structure ApiResponse where
  code : Option ℤ
  products : List ApiItem
deriving DecidableEq, Repr

/-- `ProductFetcher._fetch_via_api`: a transport/HTTP/JSON error
(`Except.error`) or a non-zero status code yields `[]`; otherwise the parsed
products.  `limit` only sets the request's `page_size`; the response is
environment data.  The callback parameter is accepted and never used, so the
reported list is always empty. -/
def fetch_via_api (fl : Filters) (c : Credentials) (resp : Except Unit ApiResponse)
    (_cb : Callback) (_limit : ℕ) : List Product × List Product :=
  match resp with
  | .error _ => ([], [])
  | .ok r => if r.code = some 0 then (parse_api_products fl c r.products, []) else ([], [])

/-- One `a[href*="/video/"]` element on a search-results page:
its `href` attribute and the text of its closest `div` (`none` models the
`evaluate` call raising, which the source turns into `continue`). -/
structure VideoLink where
  href : Option String
  parent_text : Option String
deriving DecidableEq, Repr

/-- The keyword list of `_extract_products_from_search_page`. -/
def product_keywords : List String := ["shop", "product", "buy", "sell", "price", "php", "$", "₱"]

/-- `any(word in parent_text.lower() for word in [...])`. -/
def mentions_products (text : String) : Bool :=
  product_keywords.any (fun w => strContainsSub (strLower text) w)

/-- `if href.startswith('/'): href = f'https://www.tiktok.com{href}'`. -/
def normalize_href (href0 : String) : String :=
  if "/".data.isPrefixOf href0.data then "https://www.tiktok.com" ++ href0 else href0

/-- The body of one iteration of the `_extract_products_from_search_page`
loop that reached the keyword check: report the extracted candidate to the
callback (before the criteria check, outcome discarded) and append it to the
results only when it meets the criteria. -/
def search_page_step (pyHash : String → ℤ) (fl : Filters) (cb : Callback)
    (href0 ptext : String) (products reported : List Product) :
    List Product × List Product :=
  if mentions_products ptext then
    match extract_product_from_video_link pyHash (normalize_href href0) ptext with
    | some product =>
      let _u := swallow (cb product)
      if meets_criteria fl product.price product.commission_rate product.rating then
        (products ++ [product], reported ++ [product])
      else (products, reported ++ [product])
    | none => (products, reported)
  else (products, reported)

/-- The per-link loop of `_extract_products_from_search_page`: a missing
`href` or a failed closest-div evaluation is a `continue`; otherwise run the
iteration body and stop once `limit` accepted products are reached. -/
def search_page_go (pyHash : String → ℤ) (fl : Filters) (cb : Callback) (limit : ℕ) :
    List VideoLink → List Product → List Product → List Product × List Product
  | [], products, reported => (products, reported)
  | l :: rest, products, reported =>
    match l.href with
    | none => search_page_go pyHash fl cb limit rest products reported
    | some href0 =>
      if href0 = "" then search_page_go pyHash fl cb limit rest products reported
      else
        match l.parent_text with
        | none => search_page_go pyHash fl cb limit rest products reported
        | some ptext =>
          let step := search_page_step pyHash fl cb href0 ptext products reported
          if limit ≤ step.1.length then step
          else search_page_go pyHash fl cb limit rest step.1 step.2

/-- `ProductFetcher._extract_products_from_search_page`: examine at most
`min(20, limit * 3)` video links, return at most `limit` accepted products
together with the reported sequence. -/
def extract_products_from_search_page (pyHash : String → ℤ) (fl : Filters) (cb : Callback)
    (links : List VideoLink) (limit : ℕ) : List Product × List Product :=
  let r := search_page_go pyHash fl cb limit (links.take (min 20 (limit * 3))) [] []
  (r.1.take limit, r.2)

/-- The per-query loop of `_fetch_highest_bought_auto`: one entry per search
query; `none` models a navigation exception for that query (→ `continue`). -/
def fetch_auto_go (pyHash : String → ℤ) (fl : Filters) (cb : Callback) (limit : ℕ) :
    List (Option (List VideoLink)) → List Product → List Product →
    List Product × List Product
  | [], products, reported => (products, reported)
  | page? :: rest, products, reported =>
    match page? with
    | none => fetch_auto_go pyHash fl cb limit rest products reported
    | some links =>
      let r := extract_products_from_search_page pyHash fl cb links (limit - products.length)
      let products2 := products ++ r.1
      let reported2 := reported ++ r.2
      if limit ≤ products2.length then (products2, reported2)
      else fetch_auto_go pyHash fl cb limit rest products2 reported2

/-- `ProductFetcher._fetch_highest_bought_auto`: accumulate across search
queries, then sort by sales and truncate when anything was found. -/
def fetch_highest_bought_auto (pyHash : String → ℤ) (fl : Filters) (cb : Callback)
    (pages : List (Option (List VideoLink))) (limit : ℕ) : List Product × List Product :=
  let r := fetch_auto_go pyHash fl cb limit pages [] []
  if r.1.isEmpty then ([], r.2)
  else ((sort_by_sales r.1).take limit, r.2)

/-- One `a[href*="/shop/product/"]` element for strategy 3 (link target plus
the collapsed nearby text: closest-div text, else inner text, else `""`). -/
structure LinkElem where
  href : Option String
  text : String
deriving DecidableEq, Repr

/-- One page snapshot handed to `_extract_products_from_page`:
the JSON blobs that strategy 1's regexes matched and `json.loads` parsed,
the elements of the first product-card selector with any matches
(strategy 2), and the product links of strategy 3. -/
structure ShopPage where
  json_blobs : List JsonVal
  card_elements : List CardElem
  product_links : List LinkElem

/-- Strategy 2 of `_extract_products_from_page`: parse each card element. -/
def card_products (c : Credentials) : List CardElem → List Product
  | [] => []
  | e :: rest => (parse_product_element c e).toList ++ card_products c rest

/-- Strategy 3 of `_extract_products_from_page`: product links whose trailing
id path component is longer than 5 characters. -/
def link_products (c : Credentials) : List LinkElem → List Product
  | [] => []
  | l :: rest =>
    (match l.href with
     | none => []
     | some href =>
       if href ≠ "" && (strContainsSub href "/shop/product/"
           || strContainsSub href "tiktok.com/shop/product") then
         let pid := (strSplitOn ((strSplitOn ((strSplitOn href
           "/shop/product/").getLastD "") "?").headD "") "/").getLastD ""
         if pid ≠ "" && 5 < pid.length then
           (extract_from_link_and_text c href l.text).toList
         else []
       else []) ++ link_products c rest

/-- `ProductFetcher._extract_products_from_page`: run the three strategies,
concatenate, deduplicate (first seen wins), truncate to `limit`. -/
def extract_products_from_page (c : Credentials) (page : ShopPage) (limit : ℕ) :
    List Product :=
  let s1 := (page.json_blobs.map (parse_embedded_json c)).flatten
  let s2 := card_products c (page.card_elements.take (limit * 2))
  let s3 := link_products c (page.product_links.take (limit * 3))
  (dedup_products (s1 ++ s2 ++ s3)).take limit

/-- One visited video page in `_extract_products_from_videos` (its
`/shop/product/` links; at most the first 3 are used). -/
structure VideoPage where
  product_links : List LinkElem

/-- The inner per-video extraction of `_extract_products_from_videos`. -/
def video_page_products (c : Credentials) : List LinkElem → List Product
  | [] => []
  | l :: rest =>
    (match l.href with
     | none => []
     | some href =>
       if href ≠ "" then (extract_from_link_and_text c href l.text).toList else [])
      ++ video_page_products c rest

/-- The per-video loop of `_extract_products_from_videos`. -/
def videos_go (c : Credentials) (limit : ℕ) : List VideoPage → List Product → List Product
  | [], products => products
  | v :: rest, products =>
    let products2 := products ++ video_page_products c (v.product_links.take 3)
    if limit ≤ products2.length then products2
    else videos_go c limit rest products2

/-- `ProductFetcher._extract_products_from_videos`. -/
def extract_products_from_videos (c : Credentials) (vids : List VideoPage) (limit : ℕ) :
    List Product :=
  (videos_go c limit (vids.take (min 10 (limit * 2))) []).take limit

/-- The episode loop of `_fetch_via_scraping`: one entry per navigation
episode (the four shop URLs, plus any manual-navigation re-extraction
episode); `none` models a navigation error or a 404 skip. -/
def scrape_go (c : Credentials) (limit : ℕ) :
    List (Option ShopPage) → List Product → List Product
  | [], products => products
  | page? :: rest, products =>
    match page? with
    | none => scrape_go c limit rest products
    | some page =>
      let products2 := products ++ extract_products_from_page c page (limit - products.length)
      if limit ≤ products2.length then products2
      else scrape_go c limit rest products2

/-- Everything `_fetch_via_scraping` collected before sorting: the episode
loop, then (only when it produced nothing and no manual-navigation window was
opened) the video-search fallback. -/
def scrape_collected (c : Credentials) (pages : List (Option ShopPage))
    (manual_nav : Bool) (vids : List VideoPage) (limit : ℕ) : List Product :=
  let products := scrape_go c limit pages []
  if products.isEmpty && !manual_nav then
    products ++ extract_products_from_videos c vids limit
  else products

/-- `ProductFetcher._fetch_via_scraping`: sort the collected products by
sales, truncate to `limit`, then filter by the acceptance criteria.  The
callback parameter is accepted and never used, so the reported list is always
empty. -/
def fetch_via_scraping (c : Credentials) (fl : Filters) (pages : List (Option ShopPage))
    (manual_nav : Bool) (vids : List VideoPage) (_cb : Callback) (limit : ℕ) :
    List Product × List Product :=
  let products := scrape_collected c pages manual_nav vids limit
  if products.isEmpty then ([], [])
  else
    (((sort_by_sales products).take limit).filter
      (fun p => meets_criteria fl p.price p.commission_rate p.rating), [])

/-- The fixed name pool of `_generate_demo_products`. -/
def demo_product_names : List String :=
  ["Wireless Bluetooth Earbuds Pro", "LED Makeup Mirror with Lights",
   "Portable Phone Charger 20000mAh", "Smart Watch Fitness Tracker",
   "Hair Straightener Brush", "Water Bottle with Time Marker",
   "Phone Ring Light for TikTok", "Resistance Bands Set",
   "Face Roller Jade Stone", "Laptop Stand Adjustable"]

/-- `self.filters.get('categories', ['Electronics', 'Beauty', 'Fashion'])`. -/
def demo_categories (fl : Filters) : List String :=
  fl.categories.getD ["Electronics", "Beauty", "Fashion"]

/-- `random.choice(xs)` driven by one `random()` draw: some element of `xs`
(the ⌊r·n⌋-th); raises on an empty list, which the caller models. -/
def py_choice (xs : List String) (r : ℚ) : String :=
  xs.getD (pyInt (r * xs.length)).toNat ""

/-- The demo product built for index `i`, from four `random()` draws. -/
def demo_product (fl : Filters) (rand : ℕ → ℚ) (i : ℕ) : Product :=
  let price := uniform 15 150 (rand (4 * i))
  let commission_rate := uniform 8 25 (rand (4 * i + 1))
  let name := demo_product_names.getD i ""
  { product_id := "DEMO_" ++ pad4 (i + 1)
    name := name
    description := "High-quality " ++ strLower name ++ " with excellent reviews!"
    price := round2 price
    commission_rate := round2 commission_rate
    commission_amount := round2 (price * commission_rate / 100)
    category := py_choice (demo_categories fl) (rand (4 * i + 2))
    rating := round1 (uniform 4 5 (rand (4 * i + 3)))
    image_url := "https://via.placeholder.com/400x400?text=" ++ String.mk (name.data.take 20)
    affiliate_link := "https://tiktok.com/shop/product/" ++ toString (i + 1) ++ "?affiliate=demo"
    product_url := "https://tiktok.com/shop/product/" ++ toString (i + 1)
    sales_count := none }

/-- The loop of `_generate_demo_products`: append, then report (outcome
discarded).  `random.choice` on an empty category pool raises `IndexError`,
which nothing catches (`Except.error`). -/
def demo_iter (fl : Filters) (rand : ℕ → ℚ) (cb : Callback) :
    List ℕ → Except Unit (List Product × List Product)
  | [] => .ok ([], [])
  | i :: rest =>
    if (demo_categories fl).isEmpty then .error ()
    else
      let product := demo_product fl rand i
      let _u := swallow (cb product)
      match demo_iter fl rand cb rest with
      | .error e => .error e
      | .ok r => .ok (product :: r.1, product :: r.2)

/-- `ProductFetcher._generate_demo_products`: `min(limit, 10)` synthetic
products, no criteria filtering, each reported to the callback. -/
def generate_demo_products (fl : Filters) (rand : ℕ → ℚ) (cb : Callback) (limit : ℕ) :
    Except Unit (List Product × List Product) :=
  demo_iter fl rand cb (List.range (min limit demo_product_names.length))

/-- The environment of one fetch call: credentials, what the official API
responded (`Except.error` = transport error), the page snapshot each
navigation episode produced, whether a manual-navigation window was opened,
CPython's (randomized) string hash, and the `random()` draw stream. -/
structure Env where
  credentials : Credentials
  api_response : Except Unit ApiResponse
  auto_pages : List (Option (List VideoLink))
  shop_pages : List (Option ShopPage)
  manual_nav : Bool
  video_pages : List VideoPage
  pyHash : String → ℤ
  rand : ℕ → ℚ

/-- The outcome of the first step of the fallback chain: the official API
attempt, made only when the credential triple is present. -/
def apiPart (fl : Filters) (env : Env) (cb : Callback) (limit : ℕ) :
    List Product × List Product :=
  if has_api_credentials env.credentials then
    fetch_via_api fl env.credentials env.api_response cb limit
  else ([], [])

/-- The outcome of the auto-scraping step, attempted only when
`use_scraping` holds. -/
def autoPart (fl : Filters) (env : Env) (cb : Callback) (limit : ℕ)
    (use_scraping : Bool) : List Product × List Product :=
  if use_scraping then fetch_highest_bought_auto env.pyHash fl cb env.auto_pages limit
  else ([], [])

/-- The outcome of the manual-scraping step, attempted only when
`use_scraping` holds. -/
def scrPart (fl : Filters) (env : Env) (cb : Callback) (limit : ℕ)
    (use_scraping : Bool) : List Product × List Product :=
  if use_scraping then
    fetch_via_scraping env.credentials fl env.shop_pages env.manual_nav
      env.video_pages cb limit
  else ([], [])

/-- The accepted products of the auto-scraping step in discovery order
(before its final sort and truncation). -/
def autoCollected (fl : Filters) (env : Env) (cb : Callback) (limit : ℕ)
    (use_scraping : Bool) : List Product :=
  if use_scraping then (fetch_auto_go env.pyHash fl cb limit env.auto_pages [] []).1
  else []

/-- The collected products of the manual-scraping step in discovery order
(before its final sort, truncation and filtering). -/
def scrCollected (env : Env) (limit : ℕ) (use_scraping : Bool) : List Product :=
  if use_scraping then
    scrape_collected env.credentials env.shop_pages env.manual_nav
      env.video_pages limit
  else []

/-- `ProductFetcher.fetch_trending_products`: official API, then auto
scraping, then manual scraping, then demo data; the first non-empty result
wins.  Returns the result list together with the products reported to the
callback across all attempted strategies; `Except.error` is the uncaught
`IndexError` of the demo path. -/
def fetch_trending_products (fl : Filters) (env : Env) (limit : ℕ) (use_scraping : Bool)
    (cb : Callback) : Except Unit (List Product × List Product) :=
  let api := apiPart fl env cb limit
  if !api.1.isEmpty then .ok api
  else
    let auto := autoPart fl env cb limit use_scraping
    if !auto.1.isEmpty then .ok (auto.1, api.2 ++ auto.2)
    else
      let scr := scrPart fl env cb limit use_scraping
      if !scr.1.isEmpty then .ok (scr.1, api.2 ++ auto.2 ++ scr.2)
      else
        match generate_demo_products fl env.rand cb limit with
        | .error e => .error e
        | .ok demo => .ok (demo.1, api.2 ++ auto.2 ++ scr.2 ++ demo.2)

/-- The acquisition strategies of the fetcher. -/
inductive Strategy
  | api
  | auto_scrape
  | manual_scrape
  | demo
deriving DecidableEq, Repr

/-- The strategies `fetch_trending_products` attempts, in order, mirroring
its fallback chain (a strategy is invoked exactly when its guard holds and
every earlier strategy returned an empty list). -/
def invoked_strategies (fl : Filters) (env : Env) (limit : ℕ) (use_scraping : Bool)
    (cb : Callback) : List Strategy :=
  let apiInv : List Strategy := if has_api_credentials env.credentials then [.api] else []
  if !(apiPart fl env cb limit).1.isEmpty then apiInv
  else
    let autoInv : List Strategy := if use_scraping then [.auto_scrape] else []
    if !(autoPart fl env cb limit use_scraping).1.isEmpty then apiInv ++ autoInv
    else
      let scrInv : List Strategy := if use_scraping then [.manual_scrape] else []
      if !(scrPart fl env cb limit use_scraping).1.isEmpty then apiInv ++ autoInv ++ scrInv
      else apiInv ++ autoInv ++ scrInv ++ [Strategy.demo]

/-- The discovery-order sequence behind a fetch result: the accepted products
of the winning strategy in the order they were produced, before any sorting
or truncation. -/
def discovered (fl : Filters) (env : Env) (limit : ℕ) (use_scraping : Bool)
    (cb : Callback) : List Product :=
  if !(apiPart fl env cb limit).1.isEmpty then (apiPart fl env cb limit).1
  else if !(autoPart fl env cb limit use_scraping).1.isEmpty then
    autoCollected fl env cb limit use_scraping
  else if !(scrPart fl env cb limit use_scraping).1.isEmpty then
    scrCollected env limit use_scraping
  else
    match generate_demo_products fl env.rand cb limit with
    | .error _ => []
    | .ok demo => demo.1

/-- The descending-by-sales order of the result lists. -/
def salesGE (a b : Product) : Prop := salesKey b ≤ salesKey a

theorem mem_insertDesc {a p : Product} {l : List Product} :
    a ∈ insertDesc p l ↔ a = p ∨ a ∈ l := by
  induction l with
  | nil => simp [insertDesc]
  | cons q qs ih =>
    simp only [insertDesc]
    split
    · simp only [List.mem_cons]
    · simp only [List.mem_cons, ih]
      tauto

theorem pairwise_insertDesc {p : Product} {l : List Product}
    (h : l.Pairwise salesGE) : (insertDesc p l).Pairwise salesGE := by
  induction l with
  | nil => simp [insertDesc]
  | cons q qs ih =>
    rw [List.pairwise_cons] at h
    simp only [insertDesc]
    split
    · rename_i hqp
      refine List.Pairwise.cons ?_ (List.Pairwise.cons h.1 h.2)
      intro b hb
      rcases List.mem_cons.mp hb with hb | hb
      · subst hb; exact hqp
      · exact le_trans (h.1 b hb) hqp
    · rename_i hqp
      refine List.Pairwise.cons ?_ (ih h.2)
      intro b hb
      rcases mem_insertDesc.mp hb with hb | hb
      · subst hb
        exact le_of_lt (lt_of_not_le hqp)
      · exact h.1 b hb

theorem filter_insertDesc (k : ℤ) (p : Product) (l : List Product) :
    (insertDesc p l).filter (fun q => salesKey q == k)
      = if salesKey p = k then p :: l.filter (fun q => salesKey q == k)
        else l.filter (fun q => salesKey q == k) := by
  induction l with
  | nil =>
    by_cases hp : salesKey p = k <;> simp [insertDesc, List.filter_cons, hp]
  | cons q qs ih =>
    simp only [insertDesc]
    split
    · rename_i hqp
      by_cases hp : salesKey p = k <;> simp [List.filter_cons, hp]
    · rename_i hqp
      by_cases hq : salesKey q = k <;> by_cases hp : salesKey p = k <;>
        simp [List.filter_cons, hq, hp, ih]
      · exact absurd (le_of_eq (hq.trans hp.symm)) hqp

theorem perm_insertDesc (p : Product) (l : List Product) :
    (insertDesc p l).Perm (p :: l) := by
  induction l with
  | nil => simp [insertDesc]
  | cons q qs ih =>
    simp only [insertDesc]
    split
    · exact List.Perm.refl _
    · exact (ih.cons q).trans (List.Perm.swap p q qs)

theorem sort_by_sales_perm (l : List Product) : (sort_by_sales l).Perm l := by
  induction l with
  | nil => simp [sort_by_sales]
  | cons p ps ih =>
    exact (perm_insertDesc p (sort_by_sales ps)).trans (ih.cons p)

theorem sort_by_sales_pairwise (l : List Product) :
    (sort_by_sales l).Pairwise salesGE := by
  induction l with
  | nil => simp [sort_by_sales]
  | cons p ps ih => exact pairwise_insertDesc ih

theorem sort_by_sales_filter (k : ℤ) (l : List Product) :
    (sort_by_sales l).filter (fun q => salesKey q == k)
      = l.filter (fun q => salesKey q == k) := by
  induction l with
  | nil => simp [sort_by_sales]
  | cons p ps ih =>
    simp only [sort_by_sales]
    rw [filter_insertDesc]
    by_cases hp : salesKey p = k <;> simp [List.filter_cons, hp, ih]

theorem pairwise_of_sales_none {l : List Product}
    (h : ∀ p ∈ l, p.sales_count = none) : l.Pairwise salesGE := by
  induction l with
  | nil => simp
  | cons p ps ih =>
    refine List.Pairwise.cons ?_ (ih (fun q hq => h q (List.mem_cons_of_mem p hq)))
    intro b hb
    simp [salesGE, salesKey, h p (List.mem_cons_self p ps),
      h b (List.mem_cons_of_mem p hb)]

theorem dedup_go_sublist (ps : List Product) (seen : List String) :
    (dedup_go ps seen).Sublist ps := by
  induction ps generalizing seen with
  | nil => simp [dedup_go]
  | cons p rest ih =>
    simp only [dedup_go]
    split
    · exact (ih _).cons₂ p
    · exact (ih _).cons p

theorem dedup_go_spec {ps : List Product} {seen : List String} {p : Product}
    (hp : p ∈ dedup_go ps seen) :
    ¬ dedupKey p ∈ seen ∧ dedupKey p ≠ ""
      ∧ ps.find? (fun q => dedupKey q == dedupKey p) = some p := by
  induction ps generalizing seen with
  | nil => simp [dedup_go] at hp
  | cons a rest ih =>
    simp only [dedup_go] at hp
    split at hp
    · rename_i hcond
      rw [Bool.and_eq_true, decide_eq_true_eq, Bool.not_eq_true',
        List.contains, List.elem_eq_mem, decide_eq_false_iff_not] at hcond
      rcases List.mem_cons.mp hp with hp | hp
      · subst hp
        refine ⟨hcond.2, hcond.1, ?_⟩
        simp [List.find?_cons]
      · obtain ⟨hseen, hne, hfind⟩ := ih hp
        have hkey : dedupKey a ≠ dedupKey p := by
          intro hEq
          exact hseen (hEq ▸ List.mem_cons_self _ _)
        refine ⟨fun hmem => hseen (List.mem_cons_of_mem _ hmem), hne, ?_⟩
        rw [List.find?_cons, beq_eq_false_iff_ne.mpr hkey]
        exact hfind
    · rename_i hcond
      rw [Bool.and_eq_true, not_and] at hcond
      obtain ⟨hseen, hne, hfind⟩ := ih hp
      have hkey : dedupKey a ≠ dedupKey p := by
        intro hEq
        by_cases ha : dedupKey a = ""
        · exact hne (hEq ▸ ha)
        · have h1 : (decide ¬dedupKey a = "") = true := by simp [ha]
          have h2 := hcond h1
          rw [Bool.not_eq_true', Bool.not_eq_false, List.contains,
            List.elem_eq_mem, decide_eq_true_eq] at h2
          exact hseen (hEq ▸ h2)
      refine ⟨hseen, hne, ?_⟩
      rw [List.find?_cons, beq_eq_false_iff_ne.mpr hkey]
      exact hfind

theorem dedup_go_keys_nodup (ps : List Product) (seen : List String) :
    ((dedup_go ps seen).map dedupKey).Nodup := by
  induction ps generalizing seen with
  | nil => simp [dedup_go]
  | cons a rest ih =>
    simp only [dedup_go]
    split
    · refine List.Nodup.cons ?_ (ih _)
      intro hmem
      rcases List.mem_map.mp hmem with ⟨q, hq, hkey⟩
      exact (dedup_go_spec hq).1 (hkey ▸ List.mem_cons_self _ _)
    · exact ih _

theorem dedup_products_sublist (ps : List Product) :
    (dedup_products ps).Sublist ps :=
  dedup_go_sublist ps []

theorem dedup_products_keys_nodup (ps : List Product) :
    ((dedup_products ps).map dedupKey).Nodup :=
  dedup_go_keys_nodup ps []

theorem dedup_products_first_wins {ps : List Product} {p : Product}
    (hp : p ∈ dedup_products ps) :
    ps.find? (fun q => dedupKey q == dedupKey p) = some p :=
  (dedup_go_spec hp).2.2

theorem mem_parse_api {fl : Filters} {c : Credentials} {items : List ApiItem}
    {p : Product} (hp : p ∈ parse_api_products fl c items) :
    ∃ item, item ∈ items ∧ p = api_item_to_product c item
      ∧ meets_criteria fl item.price item.commission_rate item.rating = true := by
  induction items with
  | nil => simp [parse_api_products] at hp
  | cons a rest ih =>
    simp only [parse_api_products] at hp
    split at hp
    · rename_i hmeet
      rcases List.mem_cons.mp hp with hp | hp
      · exact ⟨a, List.mem_cons_self _ _, hp, hmeet⟩
      · obtain ⟨it, h1, h2, h3⟩ := ih hp
        exact ⟨it, List.mem_cons_of_mem _ h1, h2, h3⟩
    · obtain ⟨it, h1, h2, h3⟩ := ih hp
      exact ⟨it, List.mem_cons_of_mem _ h1, h2, h3⟩

theorem parse_api_meets {fl : Filters} {c : Credentials} {items : List ApiItem}
    {p : Product} (hp : p ∈ parse_api_products fl c items) :
    meets_criteria fl p.price p.commission_rate p.rating = true := by
  obtain ⟨it, _, h2, h3⟩ := mem_parse_api hp
  subst h2
  simpa [api_item_to_product] using h3

theorem parse_api_amount {fl : Filters} {c : Credentials} {items : List ApiItem}
    {p : Product} (hp : p ∈ parse_api_products fl c items) :
    p.commission_amount = p.price * (p.commission_rate / 100) := by
  obtain ⟨it, _, h2, _⟩ := mem_parse_api hp
  subst h2
  rfl

theorem parse_api_sales_none {fl : Filters} {c : Credentials} {items : List ApiItem}
    {p : Product} (hp : p ∈ parse_api_products fl c items) :
    p.sales_count = none := by
  obtain ⟨it, _, h2, _⟩ := mem_parse_api hp
  subst h2
  rfl


theorem search_page_step_char (pyHash : String → ℤ) (fl : Filters) (cb : Callback)
    (href0 ptext : String) (products reported : List Product) :
    search_page_step pyHash fl cb href0 ptext products reported = (products, reported)
    ∨ ∃ product,
      (search_page_step pyHash fl cb href0 ptext products reported
          = (products ++ [product], reported ++ [product])
        ∧ meets_criteria fl product.price product.commission_rate product.rating = true)
      ∨ search_page_step pyHash fl cb href0 ptext products reported
          = (products, reported ++ [product]) := by
  unfold search_page_step
  split
  · split
    · rename_i product heq
      by_cases hc : meets_criteria fl product.price product.commission_rate
          product.rating = true
      · exact Or.inr ⟨product, Or.inl ⟨by simp [hc], hc⟩⟩
      · exact Or.inr ⟨product, Or.inr (by simp [hc])⟩
    · exact Or.inl rfl
  · exact Or.inl rfl

theorem search_page_step_cb (pyHash : String → ℤ) (fl : Filters) (cb cb' : Callback)
    (href0 ptext : String) (products reported : List Product) :
    search_page_step pyHash fl cb href0 ptext products reported
      = search_page_step pyHash fl cb' href0 ptext products reported := rfl

theorem search_page_go_meets {pyHash : String → ℤ} {fl : Filters} {cb : Callback}
    {limit : ℕ} {links : List VideoLink} {products reported : List Product}
    (hacc : ∀ p ∈ products, meets_criteria fl p.price p.commission_rate p.rating = true) :
    ∀ p ∈ (search_page_go pyHash fl cb limit links products reported).1,
      meets_criteria fl p.price p.commission_rate p.rating = true := by
  induction links generalizing products reported with
  | nil => simpa [search_page_go] using hacc
  | cons l rest ih =>
    have hstep : ∀ href0 ptext,
        (∀ p ∈ (search_page_step pyHash fl cb href0 ptext products reported).1,
          meets_criteria fl p.price p.commission_rate p.rating = true) := by
      intro href0 ptext p hp
      rcases search_page_step_char pyHash fl cb href0 ptext products reported with
        h | ⟨product, ⟨h, hc⟩ | h⟩ <;> rw [h] at hp
      · exact hacc p hp
      · rcases List.mem_append.mp hp with hp | hp
        · exact hacc p hp
        · rw [List.mem_singleton.mp hp]; exact hc
      · exact hacc p hp
    have hstep2 : ∀ href0 ptext,
        ∀ p ∈ (search_page_go pyHash fl cb limit rest
          (search_page_step pyHash fl cb href0 ptext products reported).1
          (search_page_step pyHash fl cb href0 ptext products reported).2).1,
          meets_criteria fl p.price p.commission_rate p.rating = true := by
      intro href0 ptext
      exact ih (hstep href0 ptext)
    simp only [search_page_go]
    split
    · exact ih hacc
    · split
      · exact ih hacc
      · split
        · exact ih hacc
        · split
          · exact hstep _ _
          · exact hstep2 _ _

theorem search_page_go_sublist {pyHash : String → ℤ} {fl : Filters} {cb : Callback}
    {limit : ℕ} {links : List VideoLink} {products reported : List Product}
    (hacc : products.Sublist reported) :
    ((search_page_go pyHash fl cb limit links products reported).1).Sublist
      ((search_page_go pyHash fl cb limit links products reported).2) := by
  induction links generalizing products reported with
  | nil => simpa [search_page_go] using hacc
  | cons l rest ih =>
    have hstep : ∀ href0 ptext,
        ((search_page_step pyHash fl cb href0 ptext products reported).1).Sublist
          ((search_page_step pyHash fl cb href0 ptext products reported).2) := by
      intro href0 ptext
      rcases search_page_step_char pyHash fl cb href0 ptext products reported with
        h | ⟨product, ⟨h, _⟩ | h⟩ <;> rw [h]
      · exact hacc
      · exact hacc.append (List.Sublist.refl _)
      · exact hacc.trans (List.sublist_append_left _ _)
    simp only [search_page_go]
    split
    · exact ih hacc
    · split
      · exact ih hacc
      · split
        · exact ih hacc
        · split
          · exact hstep _ _
          · exact ih (hstep _ _)

theorem search_page_go_cb {pyHash : String → ℤ} {fl : Filters} (cb cb' : Callback)
    {limit : ℕ} {links : List VideoLink} {products reported : List Product} :
    search_page_go pyHash fl cb limit links products reported
      = search_page_go pyHash fl cb' limit links products reported := by
  induction links generalizing products reported with
  | nil => simp [search_page_go]
  | cons l rest ih =>
    simp only [search_page_go]
    simp only [search_page_step_cb pyHash fl cb cb']
    split
    · exact ih
    · split
      · exact ih
      · split
        · exact ih
        · split
          · rfl
          · exact ih

theorem extract_search_meets {pyHash : String → ℤ} {fl : Filters} {cb : Callback}
    {links : List VideoLink} {limit : ℕ} {p : Product}
    (hp : p ∈ (extract_products_from_search_page pyHash fl cb links limit).1) :
    meets_criteria fl p.price p.commission_rate p.rating = true := by
  unfold extract_products_from_search_page at hp
  exact search_page_go_meets (by simp) p (List.mem_of_mem_take hp)

theorem extract_search_sublist (pyHash : String → ℤ) (fl : Filters) (cb : Callback)
    (links : List VideoLink) (limit : ℕ) :
    ((extract_products_from_search_page pyHash fl cb links limit).1).Sublist
      ((extract_products_from_search_page pyHash fl cb links limit).2) := by
  unfold extract_products_from_search_page
  exact (List.take_sublist _ _).trans (search_page_go_sublist (List.nil_sublist _))

theorem extract_search_cb {pyHash : String → ℤ} {fl : Filters} (cb cb' : Callback)
    (links : List VideoLink) (limit : ℕ) :
    extract_products_from_search_page pyHash fl cb links limit
      = extract_products_from_search_page pyHash fl cb' links limit := by
  unfold extract_products_from_search_page
  rw [search_page_go_cb cb cb']

theorem fetch_auto_go_meets {pyHash : String → ℤ} {fl : Filters} {cb : Callback}
    {limit : ℕ} {pages : List (Option (List VideoLink))} {products reported : List Product}
    (hacc : ∀ p ∈ products, meets_criteria fl p.price p.commission_rate p.rating = true) :
    ∀ p ∈ (fetch_auto_go pyHash fl cb limit pages products reported).1,
      meets_criteria fl p.price p.commission_rate p.rating = true := by
  induction pages generalizing products reported with
  | nil => simpa [fetch_auto_go] using hacc
  | cons page? rest ih =>
    cases page? with
    | none =>
      simp only [fetch_auto_go]
      exact ih hacc
    | some links =>
      simp only [fetch_auto_go]
      have hacc2 : ∀ p ∈ products
          ++ (extract_products_from_search_page pyHash fl cb links
              (limit - products.length)).1,
          meets_criteria fl p.price p.commission_rate p.rating = true := by
        intro p hp
        rcases List.mem_append.mp hp with hp | hp
        · exact hacc p hp
        · exact extract_search_meets hp
      split
      · exact hacc2
      · exact ih hacc2

theorem fetch_auto_go_sublist {pyHash : String → ℤ} {fl : Filters} {cb : Callback}
    {limit : ℕ} {pages : List (Option (List VideoLink))} {products reported : List Product}
    (hacc : products.Sublist reported) :
    ((fetch_auto_go pyHash fl cb limit pages products reported).1).Sublist
      ((fetch_auto_go pyHash fl cb limit pages products reported).2) := by
  induction pages generalizing products reported with
  | nil => simpa [fetch_auto_go] using hacc
  | cons page? rest ih =>
    cases page? with
    | none =>
      simp only [fetch_auto_go]
      exact ih hacc
    | some links =>
      simp only [fetch_auto_go]
      have hacc2 := hacc.append (extract_search_sublist pyHash fl cb links
        (limit - products.length))
      split
      · exact hacc2
      · exact ih hacc2

theorem fetch_auto_go_cb {pyHash : String → ℤ} {fl : Filters} (cb cb' : Callback)
    {limit : ℕ} {pages : List (Option (List VideoLink))} {products reported : List Product} :
    fetch_auto_go pyHash fl cb limit pages products reported
      = fetch_auto_go pyHash fl cb' limit pages products reported := by
  induction pages generalizing products reported with
  | nil => simp [fetch_auto_go]
  | cons page? rest ih =>
    cases page? with
    | none =>
      simp only [fetch_auto_go]
      exact ih
    | some links =>
      simp only [fetch_auto_go]
      rw [extract_search_cb cb cb']
      split
      · rfl
      · exact ih

theorem fetch_auto_meets {pyHash : String → ℤ} {fl : Filters} {cb : Callback}
    {pages : List (Option (List VideoLink))} {limit : ℕ} {p : Product}
    (hp : p ∈ (fetch_highest_bought_auto pyHash fl cb pages limit).1) :
    meets_criteria fl p.price p.commission_rate p.rating = true := by
  simp only [fetch_highest_bought_auto] at hp
  split at hp
  · simp at hp
  · have hp2 := (sort_by_sales_perm _).mem_iff.mp (List.mem_of_mem_take hp)
    exact fetch_auto_go_meets (by simp) p hp2

theorem fetch_auto_count {pyHash : String → ℤ} {fl : Filters} {cb : Callback}
    {pages : List (Option (List VideoLink))} {limit : ℕ} (p : Product) :
    ((fetch_highest_bought_auto pyHash fl cb pages limit).1).count p
      ≤ ((fetch_highest_bought_auto pyHash fl cb pages limit).2).count p := by
  simp only [fetch_highest_bought_auto]
  have hsub : ((fetch_auto_go pyHash fl cb limit pages [] []).1).Sublist
      ((fetch_auto_go pyHash fl cb limit pages [] []).2) :=
    fetch_auto_go_sublist (List.nil_sublist _)
  split
  · simp
  · calc ((sort_by_sales (fetch_auto_go pyHash fl cb limit pages [] []).1).take
        limit).count p
      ≤ (sort_by_sales (fetch_auto_go pyHash fl cb limit pages [] []).1).count p :=
        (List.take_sublist _ _).count_le p
    _ = ((fetch_auto_go pyHash fl cb limit pages [] []).1).count p :=
        (sort_by_sales_perm _).count_eq p
    _ ≤ ((fetch_auto_go pyHash fl cb limit pages [] []).2).count p :=
        hsub.count_le p

theorem fetch_auto_cb {pyHash : String → ℤ} {fl : Filters} (cb cb' : Callback)
    (pages : List (Option (List VideoLink))) (limit : ℕ) :
    fetch_highest_bought_auto pyHash fl cb pages limit
      = fetch_highest_bought_auto pyHash fl cb' pages limit := by
  simp only [fetch_highest_bought_auto]
  rw [fetch_auto_go_cb cb cb']

theorem fetch_auto_len {pyHash : String → ℤ} {fl : Filters} {cb : Callback}
    {pages : List (Option (List VideoLink))} {limit : ℕ} :
    ((fetch_highest_bought_auto pyHash fl cb pages limit).1).length ≤ limit := by
  simp only [fetch_highest_bought_auto]
  split
  · simp
  · simp [List.length_take_le]

theorem fetch_via_api_snd (fl : Filters) (c : Credentials)
    (resp : Except Unit ApiResponse) (cb : Callback) (limit : ℕ) :
    (fetch_via_api fl c resp cb limit).2 = [] := by
  unfold fetch_via_api
  match resp with
  | .error _ => rfl
  | .ok r =>
    simp only []
    split <;> rfl

theorem fetch_via_api_cb (fl : Filters) (c : Credentials)
    (resp : Except Unit ApiResponse) (cb cb' : Callback) (limit : ℕ) :
    fetch_via_api fl c resp cb limit = fetch_via_api fl c resp cb' limit := rfl

theorem fetch_via_scraping_snd (c : Credentials) (fl : Filters)
    (pages : List (Option ShopPage)) (manual_nav : Bool) (vids : List VideoPage)
    (cb : Callback) (limit : ℕ) :
    (fetch_via_scraping c fl pages manual_nav vids cb limit).2 = [] := by
  simp only [fetch_via_scraping]
  split <;> rfl

theorem fetch_via_scraping_cb (c : Credentials) (fl : Filters)
    (pages : List (Option ShopPage)) (manual_nav : Bool) (vids : List VideoPage)
    (cb cb' : Callback) (limit : ℕ) :
    fetch_via_scraping c fl pages manual_nav vids cb limit
      = fetch_via_scraping c fl pages manual_nav vids cb' limit := rfl

theorem fetch_via_scraping_meets {c : Credentials} {fl : Filters}
    {pages : List (Option ShopPage)} {manual_nav : Bool} {vids : List VideoPage}
    {cb : Callback} {limit : ℕ} {p : Product}
    (hp : p ∈ (fetch_via_scraping c fl pages manual_nav vids cb limit).1) :
    meets_criteria fl p.price p.commission_rate p.rating = true := by
  simp only [fetch_via_scraping] at hp
  split at hp
  · simp at hp
  · simp only [List.mem_filter] at hp
    exact hp.2

theorem fetch_via_scraping_len {c : Credentials} {fl : Filters}
    {pages : List (Option ShopPage)} {manual_nav : Bool} {vids : List VideoPage}
    {cb : Callback} {limit : ℕ} :
    ((fetch_via_scraping c fl pages manual_nav vids cb limit).1).length ≤ limit := by
  simp only [fetch_via_scraping]
  split
  · simp
  · calc (((sort_by_sales (scrape_collected c pages manual_nav vids limit)).take
        limit).filter
        (fun p => meets_criteria fl p.price p.commission_rate p.rating)).length
      ≤ ((sort_by_sales (scrape_collected c pages manual_nav vids limit)).take
        limit).length := List.length_filter_le _ _
    _ ≤ limit := List.length_take_le limit _

theorem demo_names_length : demo_product_names.length = 10 := rfl

theorem demo_iter_ok {fl : Filters} {rand : ℕ → ℚ} {cb : Callback}
    (h : demo_categories fl ≠ []) (is : List ℕ) :
    demo_iter fl rand cb is
      = .ok (is.map (demo_product fl rand), is.map (demo_product fl rand)) := by
  have hEmpty : (demo_categories fl).isEmpty = false := by
    simp [List.isEmpty_iff, h]
  induction is with
  | nil => rfl
  | cons i rest ih =>
    simp only [demo_iter, hEmpty, Bool.false_eq_true, if_false, ih, List.map_cons]

theorem demo_iter_error {fl : Filters} {rand : ℕ → ℚ} {cb : Callback} {i : ℕ}
    {is : List ℕ} (h : demo_categories fl = []) :
    demo_iter fl rand cb (i :: is) = .error () := by
  simp [demo_iter, h]

theorem generate_demo_ok_char {fl : Filters} {rand : ℕ → ℚ} {cb : Callback}
    {limit : ℕ} {r : List Product × List Product}
    (h : generate_demo_products fl rand cb limit = .ok r) :
    r.1 = (List.range (min limit demo_product_names.length)).map (demo_product fl rand)
      ∧ r.2 = r.1 := by
  by_cases hc : demo_categories fl = []
  · cases hn : List.range (min limit demo_product_names.length) with
    | nil =>
      unfold generate_demo_products at h
      rw [hn] at h
      simp only [demo_iter] at h
      cases h
      simp [hn]
    | cons i is =>
      unfold generate_demo_products at h
      rw [hn, demo_iter_error hc] at h
      exact absurd h (by simp)
  · unfold generate_demo_products at h
    rw [demo_iter_ok hc] at h
    cases h
    exact ⟨rfl, rfl⟩

theorem generate_demo_ok_length {fl : Filters} {rand : ℕ → ℚ} {cb : Callback}
    {limit : ℕ} {r : List Product × List Product}
    (h : generate_demo_products fl rand cb limit = .ok r) :
    r.1.length = min limit 10 := by
  rw [(generate_demo_ok_char h).1]
  simp [demo_names_length]

theorem demo_product_id (fl : Filters) (rand : ℕ → ℚ) (i : ℕ) :
    (demo_product fl rand i).product_id = "DEMO_" ++ pad4 (i + 1) := rfl

theorem demo_ids_nodup (fl : Filters) (rand : ℕ → ℚ) (limit : ℕ) :
    ((((List.range (min limit demo_product_names.length)).map
      (demo_product fl rand))).map Product.product_id).Nodup := by
  rw [List.map_map]
  have hfun : (Product.product_id ∘ demo_product fl rand)
      = fun i => "DEMO_" ++ pad4 (i + 1) := rfl
  rw [hfun]
  have hrange : List.range (min limit demo_product_names.length)
      = (List.range 10).take (min limit demo_product_names.length) := by
    rw [List.take_range]
    congr 1
    rw [demo_names_length]
    omega
  rw [hrange, List.map_take]
  exact List.Nodup.sublist (List.take_sublist _ _) (by decide)

theorem floor_le_pyRound (q : ℚ) : q.floor ≤ pyRound q := by
  simp only [pyRound]
  split_ifs <;> omega

theorem pyRound_le (q : ℚ) : pyRound q ≤ q.floor + 1 := by
  simp only [pyRound]
  split_ifs <;> omega

theorem round2_bound_15_150 {q : ℚ} (h1 : 15 ≤ q) (h2 : q < 150) :
    15 ≤ round2 q ∧ round2 q ≤ 150 := by
  have hf1 : (1500 : ℤ) ≤ (q * 100).floor := Rat.le_floor.mpr (by push_cast; linarith)
  have hf2 : (q * 100).floor < 15000 := by
    by_contra hcon
    push_neg at hcon
    have h3 := Rat.le_floor.mp hcon
    push_cast at h3
    linarith
  have hr1 := floor_le_pyRound (q * 100)
  have hr2 := pyRound_le (q * 100)
  have hq1 : (1500 : ℚ) ≤ (pyRound (q * 100) : ℚ) := by exact_mod_cast le_trans hf1 hr1
  have hq2 : (pyRound (q * 100) : ℚ) ≤ 15000 := by
    have : pyRound (q * 100) ≤ 15000 := by omega
    exact_mod_cast this
  unfold round2 round_to
  norm_num
  constructor <;> [linarith; linarith]

theorem demo_product_price (fl : Filters) (rand : ℕ → ℚ) (i : ℕ) :
    (demo_product fl rand i).price = round2 (uniform 15 150 (rand (4 * i))) := rfl

theorem demo_price_in_range {fl : Filters} {rand : ℕ → ℚ} {i : ℕ}
    (h0 : 0 ≤ rand (4 * i)) (h1 : rand (4 * i) < 1) :
    15 ≤ (demo_product fl rand i).price ∧ (demo_product fl rand i).price ≤ 150 := by
  rw [demo_product_price]
  apply round2_bound_15_150
  · unfold uniform; nlinarith
  · unfold uniform; nlinarith

theorem demo_iter_cb (fl : Filters) (rand : ℕ → ℚ) (cb cb' : Callback) (is : List ℕ) :
    demo_iter fl rand cb is = demo_iter fl rand cb' is := by
  induction is with
  | nil => rfl
  | cons i rest ih =>
    simp only [demo_iter, ih]

theorem generate_demo_cb (fl : Filters) (rand : ℕ → ℚ) (cb cb' : Callback) (limit : ℕ) :
    generate_demo_products fl rand cb limit = generate_demo_products fl rand cb' limit :=
  demo_iter_cb fl rand cb cb' _

theorem demo_sales_none (fl : Filters) (rand : ℕ → ℚ) (i : ℕ) :
    (demo_product fl rand i).sales_count = none := rfl

/-- Filters with every key absent (all defaults apply). -/
def noFilters : Filters := ⟨none, none, none, none, none⟩

/-- A callback that always succeeds. -/
def cbOk : Callback := fun _ => Except.ok ()

/-- A callback that always raises. -/
def cbErr : Callback := fun _ => Except.error CbErr.err

/-- Concrete credentials with the full API triple present. -/
def apiCreds : Credentials := ⟨"key", "secret", "token", none⟩

/-- An environment where only the official API answers. -/
def apiEnv (resp : Except Unit ApiResponse) : Env :=
  ⟨apiCreds, resp, [], [], false, [], fun _ => 0, fun _ => 1/2⟩

/-- An environment with no credentials and no browser results: only the demo
fallback can produce anything. -/
def emptyEnv : Env :=
  ⟨⟨"", "", "", none⟩, .error (), [], [], false, [], fun _ => 0, fun _ => 1/2⟩

/-- C9 counterexample: the claim says the sales-count text `"12.5K sold"`
normalizes to 12500 via the count token `"12.5K"`.  On the code, the
sales-pattern regex `\d+[KMB]?` cannot cross the decimal point, so the token
extracted from `"12.5K sold"` is `"5K"` and the text normalizes to 5000; and
`_parse_count` applied to the whole text returns 0.  Neither is 12500. -/
theorem C9_counterexample :
    extract_sales_count "12.5K sold" = 5000
      ∧ parse_count "12.5K sold" = 0
      ∧ extract_sales_count "12.5K sold" ≠ 12500
      ∧ parse_count "12.5K sold" ≠ 12500 := by
  refine ⟨rfl, rfl, ?_, ?_⟩ <;> decide

/-- C9 (amended): `_parse_count` maps the count token `"12.5K"` to 12500 and
the text `"1.2M"` to 1200000; however the token the sales-pattern regexes
extract from `"12.5K sold"` is `"5K"` (the `\d+[KMB]?` pattern admits no
decimal point), so that text normalizes to 5000, not 12500. -/
theorem C9_amended :
    parse_count "12.5K" = 12500
      ∧ parse_count "1.2M" = 1200000
      ∧ scanFirst matchSales1At "12.5K sold".data = some "5K".data
      ∧ extract_sales_count "12.5K sold" = 5000 :=
  ⟨rfl, rfl, rfl, rfl⟩

/-- An API item that passes the default filters. -/
def plainItem : ApiItem := ⟨"TT123456", "Gadget", "", 50, 10, 5, "General", "", ""⟩

/-- The result list of a fetch whose API response repeats `plainItem`. -/
def c3_result : List Product :=
  ((fetch_trending_products noFilters (apiEnv (.ok ⟨some 0, [plainItem, plainItem]⟩))
    5 true cbOk).toOption.getD ([], [])).1

/-- C3 counterexample: the official API path applies no deduplication at all,
so a response repeating one product id yields a fetch result whose ids are
not pairwise distinct. -/
theorem C3_counterexample :
    c3_result.map Product.product_id = ["TT123456", "TT123456"]
      ∧ ¬ (c3_result.map Product.product_id).Nodup := by
  refine ⟨rfl, ?_⟩
  decide

/-- C3 (amended): deduplication exists only inside one page snapshot of the
manual-scraping path (`_extract_products_from_page`): there the dedup keys
(external id, name as fallback) of the output are pairwise distinct, the
output preserves the input order, and for each kept product the first
candidate of the page with its key is that product (first seen wins).  The
API path, the auto-search path, and the accumulation across pages never
deduplicate, so a full fetch result can repeat ids. -/
theorem C3_amended : ∀ (ps : List Product) (c : Credentials) (page : ShopPage)
    (limit : ℕ),
    ((dedup_products ps).map dedupKey).Nodup
    ∧ (dedup_products ps).Sublist ps
    ∧ (∀ p ∈ dedup_products ps, ps.find? (fun q => dedupKey q == dedupKey p) = some p)
    ∧ ((extract_products_from_page c page limit).map dedupKey).Nodup := by
  intro ps c page limit
  refine ⟨dedup_products_keys_nodup ps, dedup_products_sublist ps,
    fun p hp => dedup_products_first_wins hp, ?_⟩
  simp only [extract_products_from_page]
  rw [List.map_take]
  exact List.Nodup.sublist (List.take_sublist _ _) (dedup_products_keys_nodup _)

/-- A product used to exercise the dedup loop in the C3 witness. -/
def p3w : Product :=
  ⟨"TT1", "A", "", 10, 10, 1, "General", 4, "", "", "", none⟩

theorem C3_amended_witness :
    p3w ∈ dedup_products [p3w, p3w]
      ∧ [p3w, p3w].find? (fun q => dedupKey q == dedupKey p3w) = some p3w :=
  ⟨by decide, (C3_amended [p3w, p3w] ⟨"", "", "", none⟩ ⟨[], [], []⟩ 5).2.2.1 p3w
    (by decide)⟩

/-- An API item whose price times rate over 100 has three decimals. -/
def c5item : ApiItem := ⟨"TT555555", "Widget", "", 3333/100, 10, 5, "General", "", ""⟩

/-- The result list of a fetch whose API response is `c5item`. -/
def c5_result : List Product :=
  ((fetch_trending_products noFilters (apiEnv (.ok ⟨some 0, [c5item]⟩))
    5 true cbOk).toOption.getD ([], [])).1

/-- C5 counterexample: the API path stores `price * (commission_rate / 100)`
with no rounding: for price 33.33 and rate 10 the stored commission amount is
3.333, while the claimed `round(price * rate / 100, 2)` is 3.33. -/
theorem C5_counterexample :
    c5_result.map Product.commission_amount = [3333/1000]
      ∧ c5_result.map (fun p => round2 (p.price * p.commission_rate / 100)) = [333/100]
      ∧ (3333/1000 : ℚ) ≠ 333/100 := by
  refine ⟨rfl, rfl, ?_⟩
  norm_num

theorem optBind_eq_some {α β : Type} {x : Option α} {f : α → Option β} {b : β} :
    x >>= f = some b ↔ ∃ a, x = some a ∧ f a = some b := Option.bind_eq_some

/-- C5 (amended): the commission amount is always recomputed from the
extracted price and rate, never read from a source-provided amount field; but
the formula differs by strategy.  The API path stores the product of the
stored price and rate over 100 with no rounding.  The embedded-JSON path,
the card/link/video extractors and the demo generator store
`round(rawPrice * rawRate / 100, 2)` computed from the pre-rounding raw
values (the stored price and rate being rounded separately). -/
theorem C5_amended : ∀ (fl : Filters) (c : Credentials),
    (∀ (items : List ApiItem) (p : Product), p ∈ parse_api_products fl c items →
      p.commission_amount = p.price * (p.commission_rate / 100))
    ∧ (∀ (o : List (String × JsonVal)) (p : Product), json_to_product c o = some p →
      ∃ praw craw, json_price_of o = some praw ∧ json_rate_of o = some craw
        ∧ p.price = round2 praw ∧ p.commission_rate = round2 craw
        ∧ p.commission_amount = round2 (praw * craw / 100))
    ∧ (∀ (e : CardElem) (p : Product), parse_product_element c e = some p →
      p.commission_rate = 10
        ∧ ∃ praw, p.price = round2 praw
            ∧ p.commission_amount = round2 (praw * (10 / 100)))
    ∧ (∀ (href text : String) (p : Product),
      extract_from_link_and_text c href text = some p →
      p.commission_rate = 10
        ∧ ∃ praw, p.price = round2 praw
            ∧ p.commission_amount = round2 (praw * (10 / 100)))
    ∧ (∀ (pyHash : String → ℤ) (url text : String) (p : Product),
      extract_product_from_video_link pyHash url text = some p →
      p.commission_rate = 10
        ∧ ∃ praw, p.price = round2 praw
            ∧ p.commission_amount = round2 (praw * (10 / 100)))
    ∧ (∀ (rand : ℕ → ℚ) (i : ℕ),
      ∃ praw craw, (demo_product fl rand i).price = round2 praw
        ∧ (demo_product fl rand i).commission_rate = round2 craw
        ∧ (demo_product fl rand i).commission_amount = round2 (praw * craw / 100)) := by
  intro fl c
  have h010 : (0.10 : ℚ) = 10 / 100 := by norm_num
  refine ⟨?_, ?_, ?_, ?_, ?_, ?_⟩
  · intro items p hp
    exact parse_api_amount hp
  · intro o p h
    simp only [json_to_product, optBind_eq_some] at h
    obtain ⟨pid, hpid, praw, hpraw, sales, hsales, rating, hrating, craw, hcraw,
      img, himg, purl, hpurl, hp⟩ := h
    rw [Option.some_inj] at hp
    refine ⟨praw, craw, hpraw, hcraw, ?_, ?_, ?_⟩ <;> rw [← hp]
  · intro e p h
    rcases e with ⟨href?, title?, text, img?⟩
    cases href? with
    | none => simp [parse_product_element] at h
    | some href =>
      simp only [parse_product_element] at h
      split at h
      · exact absurd h (by simp)
      · split at h <;>
        · rw [optBind_eq_some] at h
          obtain ⟨praw, hpraw, hp⟩ := h
          rw [Option.some_inj] at hp
          exact ⟨by rw [← hp]; norm_num, praw, by rw [← hp], by rw [← hp, ← h010]⟩
  · intro href text p h
    simp only [extract_from_link_and_text] at h
    split at h
    · exact absurd h (by simp)
    · split at h <;>
      · rw [optBind_eq_some] at h
        obtain ⟨praw, hpraw, hp⟩ := h
        rw [Option.some_inj] at hp
        exact ⟨by rw [← hp]; norm_num, praw, by rw [← hp], by rw [← hp, ← h010]⟩
  · intro pyHash url text p h
    simp only [extract_product_from_video_link, Option.some_inj] at h
    subst h
    exact ⟨by norm_num, _, rfl, by rw [← h010]⟩
  · intro rand i
    exact ⟨uniform 15 150 (rand (4 * i)), uniform 8 25 (rand (4 * i + 1)), rfl, rfl, rfl⟩

/-- The product the API path builds from `c5item`. -/
def p5w : Product := api_item_to_product apiCreds c5item

theorem C5_amended_witness :
    p5w ∈ parse_api_products noFilters apiCreds [c5item]
      ∧ p5w.commission_amount = p5w.price * (p5w.commission_rate / 100) :=
  ⟨by decide, (C5_amended noFilters apiCreds).1 [c5item] p5w (by decide)⟩

/-- Filters requiring a price of at least 200 (the demo pool is capped at
150, so every demo product violates them). -/
def flMin200 : Filters := ⟨some 200, none, none, none, none⟩

/-- The result of a fetch that falls through to the demo generator under
`flMin200`. -/
def c4_result : List Product :=
  ((fetch_trending_products flMin200 emptyEnv 2 true cbOk).toOption.getD ([], [])).1

/-- C4 counterexample: the demo fallback never applies `_meets_criteria`, so
with a minimum price of 200 the fetch still returns demo products priced
82.50, violating the caller's filters. -/
theorem C4_counterexample :
    c4_result.map Product.price = [82.5, 82.5]
      ∧ c4_result.map (fun p => meets_criteria flMin200 p.price p.commission_rate p.rating)
        = [false, false] := by
  exact ⟨by decide, by decide⟩

/-- C4 (amended): products returned by the official-API, auto-search and
manual-scraping strategies all satisfy the caller's acceptance filters; the
synthetic (demo) fallback generates products within its own fixed bounds
without ever checking the caller's filters, so its products can violate
them. -/
theorem C4_amended : ∀ (fl : Filters) (c : Credentials) (resp : Except Unit ApiResponse)
    (cb : Callback) (limit : ℕ) (pyHash : String → ℤ)
    (apages : List (Option (List VideoLink))) (spages : List (Option ShopPage))
    (mn : Bool) (vids : List VideoPage),
    (∀ p ∈ (fetch_via_api fl c resp cb limit).1,
      meets_criteria fl p.price p.commission_rate p.rating = true)
    ∧ (∀ p ∈ (fetch_highest_bought_auto pyHash fl cb apages limit).1,
      meets_criteria fl p.price p.commission_rate p.rating = true)
    ∧ (∀ p ∈ (fetch_via_scraping c fl spages mn vids cb limit).1,
      meets_criteria fl p.price p.commission_rate p.rating = true) := by
  intro fl c resp cb limit pyHash apages spages mn vids
  refine ⟨?_, ?_, ?_⟩
  · intro p hp
    unfold fetch_via_api at hp
    match resp with
    | .error _ => simp at hp
    | .ok r =>
      simp only at hp
      split at hp
      · exact parse_api_meets hp
      · simp at hp
  · intro p hp
    exact fetch_auto_meets hp
  · intro p hp
    exact fetch_via_scraping_meets hp

/-- The product the API path builds from `plainItem`. -/
def p4w : Product := api_item_to_product apiCreds plainItem

theorem C4_amended_witness :
    p4w ∈ (fetch_via_api noFilters apiCreds (.ok ⟨some 0, [plainItem]⟩) cbOk 5).1
      ∧ meets_criteria noFilters p4w.price p4w.commission_rate p4w.rating = true :=
  ⟨by decide,
    (C4_amended noFilters apiCreds (.ok ⟨some 0, [plainItem]⟩) cbOk 5 (fun _ => 0) [] []
      false []).1 p4w (by decide)⟩

/-- The single valid API item of the C1 counterexample fetch. -/
def c1item : ApiItem := ⟨"TT111111", "Gadget", "", 50, 10, 5, "General", "", ""⟩

/-- C1 counterexample: with credentials present and the API returning one
valid item, the fetch returns that product but the callback is never invoked
(the reported sequence is empty), so the returned product is not passed to
the callback exactly once. -/
theorem C1_counterexample :
    fetch_trending_products noFilters (apiEnv (.ok ⟨some 0, [c1item]⟩)) 5 true cbOk
      = .ok ([api_item_to_product apiCreds c1item], [])
    ∧ ¬ (∀ p ∈ [api_item_to_product apiCreds c1item],
        ([] : List Product).count p = 1) := by
  constructor
  · rfl
  · intro hall
    have h := hall (api_item_to_product apiCreds c1item) (by decide)
    simp at h

/-- C1 (amended): only the demo and auto-search strategies report products to
the caller's callback.  The official-API path and the manual-scraping path
accept a callback but never invoke it.  The demo generator reports exactly
the returned products, in order (each appended to the result just before its
callback call).  The auto-search path reports every extracted candidate once,
before the acceptance check, so each occurrence of a product in its result
corresponds to a distinct callback invocation (and rejected candidates are
reported as well). -/
theorem C1_amended : ∀ (fl : Filters) (c : Credentials) (resp : Except Unit ApiResponse)
    (cb : Callback) (limit : ℕ) (pyHash : String → ℤ)
    (spages : List (Option ShopPage)) (mn : Bool) (vids : List VideoPage)
    (apages : List (Option (List VideoLink))) (rand : ℕ → ℚ),
    (fetch_via_api fl c resp cb limit).2 = []
    ∧ (fetch_via_scraping c fl spages mn vids cb limit).2 = []
    ∧ (∀ r, generate_demo_products fl rand cb limit = .ok r → r.2 = r.1)
    ∧ (∀ p : Product, ((fetch_highest_bought_auto pyHash fl cb apages limit).1).count p
        ≤ ((fetch_highest_bought_auto pyHash fl cb apages limit).2).count p) := by
  intro fl c resp cb limit pyHash spages mn vids apages rand
  refine ⟨fetch_via_api_snd fl c resp cb limit,
    fetch_via_scraping_snd c fl spages mn vids cb limit, ?_, fetch_auto_count⟩
  intro r hr
  exact (generate_demo_ok_char hr).2

/-- The demo output of `emptyEnv`'s draw stream at limit 2. -/
def c1demo : List Product × List Product :=
  (generate_demo_products noFilters emptyEnv.rand cbOk 2).toOption.getD ([], [])

theorem C1_amended_witness :
    generate_demo_products noFilters emptyEnv.rand cbOk 2 = .ok c1demo
      ∧ c1demo.2 = c1demo.1 :=
  ⟨rfl,
    (C1_amended noFilters apiCreds (.error ()) cbOk 2 (fun _ => 0) [] false [] []
      emptyEnv.rand).2.2.1 c1demo rfl⟩

theorem apiPart_snd (fl : Filters) (env : Env) (cb : Callback) (limit : ℕ) :
    (apiPart fl env cb limit).2 = [] := by
  unfold apiPart
  split
  · exact fetch_via_api_snd fl env.credentials env.api_response cb limit
  · rfl

theorem scrPart_snd (fl : Filters) (env : Env) (cb : Callback) (limit : ℕ) (us : Bool) :
    (scrPart fl env cb limit us).2 = [] := by
  unfold scrPart
  split
  · exact fetch_via_scraping_snd env.credentials fl env.shop_pages env.manual_nav
      env.video_pages cb limit
  · rfl

/-- Case analysis along the fallback chain of `fetch_trending_products`:
establishes a property of the fetch outcome paired with its discovery-order
sequence, from one hypothesis per branch. -/
theorem fetch_elim {fl : Filters} {env : Env} {limit : ℕ} {us : Bool} {cb : Callback}
    {motive : Except Unit (List Product × List Product) → List Product → Prop}
    (hapi : has_api_credentials env.credentials = true
      → (apiPart fl env cb limit).1 ≠ []
      → motive (.ok (apiPart fl env cb limit)) (apiPart fl env cb limit).1)
    (hauto : (apiPart fl env cb limit).1 = []
      → (autoPart fl env cb limit us).1 ≠ []
      → motive (.ok ((autoPart fl env cb limit us).1, (autoPart fl env cb limit us).2))
          (autoCollected fl env cb limit us))
    (hscr : (apiPart fl env cb limit).1 = []
      → (autoPart fl env cb limit us).1 = []
      → (scrPart fl env cb limit us).1 ≠ []
      → motive (.ok ((scrPart fl env cb limit us).1, (autoPart fl env cb limit us).2))
          (scrCollected env limit us))
    (hdemo : ∀ d, (apiPart fl env cb limit).1 = []
      → (autoPart fl env cb limit us).1 = []
      → (scrPart fl env cb limit us).1 = []
      → generate_demo_products fl env.rand cb limit = .ok d
      → motive (.ok (d.1, (autoPart fl env cb limit us).2 ++ d.2)) d.1)
    (herr : generate_demo_products fl env.rand cb limit = .error ()
      → motive (.error ()) []) :
    motive (fetch_trending_products fl env limit us cb) (discovered fl env limit us cb) := by
  simp only [fetch_trending_products, discovered]
  by_cases h1 : (apiPart fl env cb limit).1.isEmpty = true
  · have h1' : (apiPart fl env cb limit).1 = [] := by
      simpa [List.isEmpty_iff] using h1
    simp only [h1, Bool.not_true, Bool.false_eq_true, if_false]
    by_cases h2 : (autoPart fl env cb limit us).1.isEmpty = true
    · have h2' : (autoPart fl env cb limit us).1 = [] := by
        simpa [List.isEmpty_iff] using h2
      simp only [h2, Bool.not_true, Bool.false_eq_true, if_false]
      by_cases h3 : (scrPart fl env cb limit us).1.isEmpty = true
      · have h3' : (scrPart fl env cb limit us).1 = [] := by
          simpa [List.isEmpty_iff] using h3
        simp only [h3, Bool.not_true, Bool.false_eq_true, if_false]
        cases hd : generate_demo_products fl env.rand cb limit with
        | error e =>
          cases e
          exact herr hd
        | ok d =>
          have := hdemo d h1' h2' h3' hd
          simpa [apiPart_snd, scrPart_snd] using this
      · have h3' : (scrPart fl env cb limit us).1 ≠ [] := by
          simpa [List.isEmpty_iff] using h3
        simp only [h3, if_true, Bool.not_false]
        have := hscr h1' h2' h3'
        simpa [apiPart_snd, scrPart_snd] using this
    · have h2' : (autoPart fl env cb limit us).1 ≠ [] := by
        simpa [List.isEmpty_iff] using h2
      simp only [h2, if_true, Bool.not_false]
      have := hauto h1' h2'
      simpa [apiPart_snd] using this
  · have h1' : (apiPart fl env cb limit).1 ≠ [] := by
      simpa [List.isEmpty_iff] using h1
    simp only [h1, if_true, Bool.not_false]
    have hcred : has_api_credentials env.credentials = true := by
      by_contra hc
      rw [Bool.not_eq_true] at hc
      simp [apiPart, hc] at h1'
    exact hapi hcred h1'

theorem autoPart_len {fl : Filters} {env : Env} {cb : Callback} {limit : ℕ} {us : Bool} :
    ((autoPart fl env cb limit us).1).length ≤ limit := by
  unfold autoPart
  split
  · exact fetch_auto_len
  · simp

theorem scrPart_len {fl : Filters} {env : Env} {cb : Callback} {limit : ℕ} {us : Bool} :
    ((scrPart fl env cb limit us).1).length ≤ limit := by
  unfold scrPart
  split
  · exact fetch_via_scraping_len
  · simp

/-- C2 (amended): for every limit N > 0, a fetch call that returns (rather
than raising the demo path's `IndexError` on an empty category pool) returns
a non-empty list; its length is at most N whenever the result did not come
from the official API, but the API path returns the full filtered parse of
the response without truncation, so its length is bounded by N only if the
server honors the requested `page_size`. -/
theorem C2_amended : ∀ (fl : Filters) (env : Env) (limit : ℕ) (us : Bool) (cb : Callback)
    (r : List Product × List Product), 0 < limit →
    fetch_trending_products fl env limit us cb = .ok r →
    0 < r.1.length
    ∧ ((has_api_credentials env.credentials = true
        → (fetch_via_api fl env.credentials env.api_response cb limit).1 = [])
      → r.1.length ≤ limit) := by
  intro fl env limit us cb r hlim hfetch
  refine (fetch_elim
    (motive := fun out _ => out = Except.ok r →
      0 < r.1.length
      ∧ ((has_api_credentials env.credentials = true
          → (fetch_via_api fl env.credentials env.api_response cb limit).1 = [])
        → r.1.length ≤ limit)) ?_ ?_ ?_ ?_ ?_) hfetch
  · intro hcred hne hok
    rw [Except.ok.injEq] at hok
    subst hok
    refine ⟨List.length_pos.mpr hne, ?_⟩
    intro himp
    exfalso
    apply hne
    simp [apiPart, hcred, himp hcred]
  · intro hapi0 hne hok
    rw [Except.ok.injEq] at hok
    subst hok
    exact ⟨List.length_pos.mpr hne, fun _ => autoPart_len⟩
  · intro hapi0 hauto0 hne hok
    rw [Except.ok.injEq] at hok
    subst hok
    exact ⟨List.length_pos.mpr hne, fun _ => scrPart_len⟩
  · intro d hapi0 hauto0 hscr0 hd hok
    rw [Except.ok.injEq] at hok
    subst hok
    have hlen := generate_demo_ok_length hd
    constructor
    · simp only [hlen]
      omega
    · intro _
      simp only [hlen]
      omega
  · intro hd hok
    simp at hok

/-- The fetch result when the API answers three valid items at limit 2. -/
def c2_result : List Product :=
  ((fetch_trending_products noFilters
    (apiEnv (.ok ⟨some 0, [plainItem, plainItem, plainItem]⟩)) 2 true
    cbOk).toOption.getD ([], [])).1

/-- C2 counterexample: with limit 2 and an API response of three items that
all pass the filters, the fetch returns all three — the claimed bound
`len <= N` fails on the official-API path, which never truncates. -/
theorem C2_counterexample : c2_result.length = 3 ∧ ¬ (c2_result.length ≤ 2) :=
  ⟨rfl, by decide⟩

/-- The fetch result for the demo path at limit 2. -/
def c2wr : List Product × List Product :=
  (fetch_trending_products noFilters emptyEnv 2 true cbOk).toOption.getD ([], [])

theorem C2_amended_witness :
    (0 < 2) ∧ fetch_trending_products noFilters emptyEnv 2 true cbOk = .ok c2wr
      ∧ (0 < c2wr.1.length
        ∧ ((has_api_credentials emptyEnv.credentials = true
            → (fetch_via_api noFilters emptyEnv.credentials emptyEnv.api_response
                cbOk 2).1 = [])
          → c2wr.1.length ≤ 2)) :=
  ⟨by decide, rfl, C2_amended noFilters emptyEnv 2 true cbOk c2wr (by decide) rfl⟩

theorem extract_search_zero (pyHash : String → ℤ) (fl : Filters) (cb : Callback)
    (links : List VideoLink) :
    extract_products_from_search_page pyHash fl cb links 0 = ([], []) := by
  simp [extract_products_from_search_page, search_page_go]

theorem fetch_auto_go_zero (pyHash : String → ℤ) (fl : Filters) (cb : Callback)
    (pages : List (Option (List VideoLink))) (rep : List Product) :
    fetch_auto_go pyHash fl cb 0 pages [] rep = ([], rep) := by
  induction pages generalizing rep with
  | nil => rfl
  | cons page? rest ih =>
    cases page? with
    | none =>
      simp only [fetch_auto_go]
      exact ih rep
    | some links =>
      simp only [fetch_auto_go, List.length_nil, Nat.sub_zero, extract_search_zero]
      simp

theorem fetch_auto_zero (pyHash : String → ℤ) (fl : Filters) (cb : Callback)
    (pages : List (Option (List VideoLink))) :
    fetch_highest_bought_auto pyHash fl cb pages 0 = ([], []) := by
  simp [fetch_highest_bought_auto, fetch_auto_go_zero]

theorem extract_page_zero (c : Credentials) (page : ShopPage) :
    extract_products_from_page c page 0 = [] := by
  simp [extract_products_from_page]

theorem scrape_go_zero (c : Credentials) (pages : List (Option ShopPage)) :
    scrape_go c 0 pages [] = [] := by
  induction pages with
  | nil => rfl
  | cons page? rest ih =>
    cases page? with
    | none =>
      simp only [scrape_go]
      exact ih
    | some page =>
      simp only [scrape_go, List.length_nil, Nat.sub_zero, extract_page_zero]
      simp

theorem videos_zero (c : Credentials) (vids : List VideoPage) :
    extract_products_from_videos c vids 0 = [] := by
  simp [extract_products_from_videos]

theorem scrape_collected_zero (c : Credentials) (pages : List (Option ShopPage))
    (mn : Bool) (vids : List VideoPage) :
    scrape_collected c pages mn vids 0 = [] := by
  simp only [scrape_collected, scrape_go_zero, videos_zero]
  split <;> simp

theorem fetch_via_scraping_zero (c : Credentials) (fl : Filters)
    (pages : List (Option ShopPage)) (mn : Bool) (vids : List VideoPage)
    (cb : Callback) :
    fetch_via_scraping c fl pages mn vids cb 0 = ([], []) := by
  simp [fetch_via_scraping, scrape_collected_zero]

theorem generate_demo_zero (fl : Filters) (rand : ℕ → ℚ) (cb : Callback) :
    generate_demo_products fl rand cb 0 = .ok ([], []) := rfl

/-- C8 (amended): `fetch_trending_products(limit=0)` does return the empty
list (whenever the official API yields nothing — the API path is not
truncated, so a misbehaving server could still return items), but it does so
after attempting every strategy: the API request is still issued when
credentials are present, and the browser-driven strategies and the demo
generator still run (with zero-budget loops). -/
theorem C8_amended : ∀ (fl : Filters) (env : Env) (us : Bool) (cb : Callback),
    (has_api_credentials env.credentials = true
      → (fetch_via_api fl env.credentials env.api_response cb 0).1 = [])
    → fetch_trending_products fl env 0 us cb = .ok ([], []) := by
  intro fl env us cb hapi
  have hapiP : apiPart fl env cb 0 = ([], []) := by
    have h2 := apiPart_snd fl env cb 0
    have h1 : (apiPart fl env cb 0).1 = [] := by
      unfold apiPart
      split
      · rename_i hc
        exact hapi hc
      · rfl
    calc apiPart fl env cb 0 = ((apiPart fl env cb 0).1, (apiPart fl env cb 0).2) := rfl
      _ = ([], []) := by rw [h1, h2]
  have hautoP : autoPart fl env cb 0 us = ([], []) := by
    unfold autoPart
    split
    · exact fetch_auto_zero env.pyHash fl cb env.auto_pages
    · rfl
  have hscrP : scrPart fl env cb 0 us = ([], []) := by
    unfold scrPart
    split
    · exact fetch_via_scraping_zero env.credentials fl env.shop_pages env.manual_nav
        env.video_pages cb
    · rfl
  simp [fetch_trending_products, hapiP, hautoP, hscrP, generate_demo_zero]

/-- The environment of the C8 examples: credentials present, the API
answering success with no items. -/
def env8 : Env := apiEnv (.ok ⟨some 0, []⟩)

/-- C8 counterexample: at limit 0 the fetch still attempts every strategy —
the claim that no strategy is invoked is false (the API request is issued,
the browser strategies run, the demo generator runs). -/
theorem C8_counterexample :
    invoked_strategies noFilters env8 0 true cbOk
      = [.api, .auto_scrape, .manual_scrape, .demo]
    ∧ invoked_strategies noFilters env8 0 true cbOk ≠ [] := by
  refine ⟨rfl, ?_⟩
  decide

theorem C8_amended_witness :
    (has_api_credentials env8.credentials = true
      → (fetch_via_api noFilters env8.credentials env8.api_response cbOk 0).1 = [])
    ∧ fetch_trending_products noFilters env8 0 true cbOk = .ok ([], []) :=
  ⟨fun _ => rfl, C8_amended noFilters env8 true cbOk (fun _ => rfl)⟩

/-- C7 (amended): when no real acquisition method yields any product (and
the fetch returns rather than raising on an empty category pool), the result
is exactly `min(limit, 10)` synthetic products — the name pool has 10
entries, so for limit > 10 fewer than `limit` products are returned.  Their
ids are the distinct `DEMO_nnnn` strings for `1 <= n <= min(limit, 10)`, and
each price lies in [15, 150]. -/
theorem C7_amended : ∀ (fl : Filters) (env : Env) (limit : ℕ) (us : Bool) (cb : Callback)
    (r : List Product × List Product),
    (has_api_credentials env.credentials = true
      → (fetch_via_api fl env.credentials env.api_response cb limit).1 = [])
    → (us = true
      → (fetch_highest_bought_auto env.pyHash fl cb env.auto_pages limit).1 = [])
    → (us = true
      → (fetch_via_scraping env.credentials fl env.shop_pages env.manual_nav
          env.video_pages cb limit).1 = [])
    → (∀ n, 0 ≤ env.rand n ∧ env.rand n < 1)
    → fetch_trending_products fl env limit us cb = .ok r
    → r.1.length = min limit 10
      ∧ (r.1.map Product.product_id).Nodup
      ∧ (∀ p ∈ r.1, (15 ≤ p.price ∧ p.price ≤ 150)
          ∧ ∃ i, i < min limit 10 ∧ p.product_id = "DEMO_" ++ pad4 (i + 1)) := by
  intro fl env limit us cb r hapi hauto hscr hrand hfetch
  have hapiP : (apiPart fl env cb limit).1 = [] := by
    unfold apiPart
    split
    · rename_i hc
      exact hapi hc
    · rfl
  have hautoP : (autoPart fl env cb limit us).1 = [] := by
    unfold autoPart
    split
    · rename_i hus
      exact hauto hus
    · rfl
  have hscrP : (scrPart fl env cb limit us).1 = [] := by
    unfold scrPart
    split
    · rename_i hus
      exact hscr hus
    · rfl
  simp only [fetch_trending_products, hapiP, hautoP, hscrP, List.isEmpty_nil,
    Bool.not_true, Bool.false_eq_true, if_false] at hfetch
  cases hd : generate_demo_products fl env.rand cb limit with
  | error e =>
    rw [hd] at hfetch
    simp at hfetch
  | ok d =>
    rw [hd] at hfetch
    simp only [Except.ok.injEq] at hfetch
    subst hfetch
    obtain ⟨hchar, _⟩ := generate_demo_ok_char hd
    refine ⟨?_, ?_, ?_⟩
    · simp only [hchar, List.length_map, List.length_range, demo_names_length]
    · simp only [hchar]
      exact demo_ids_nodup fl env.rand limit
    · intro p hp
      simp only [hchar] at hp
      obtain ⟨i, hi, rfl⟩ := List.mem_map.mp hp
      rw [List.mem_range, demo_names_length] at hi
      exact ⟨demo_price_in_range (hrand (4 * i)).1 (hrand (4 * i)).2,
        i, hi, demo_product_id fl env.rand i⟩

/-- The fetch result for the demo path at limit 11. -/
def c7_result : List Product :=
  ((fetch_trending_products noFilters emptyEnv 11 true cbOk).toOption.getD ([], [])).1

/-- C7 counterexample: the demo name pool has only 10 entries, so a fetch
whose strategies all fail at limit 11 returns 10 synthetic products, not
`limit`. -/
theorem C7_counterexample : c7_result.length = 10 ∧ c7_result.length ≠ 11 :=
  ⟨rfl, by decide⟩

/-- The fetch result for the demo path at limit 3. -/
def c7wr : List Product × List Product :=
  (fetch_trending_products noFilters emptyEnv 3 true cbOk).toOption.getD ([], [])

theorem C7_amended_witness :
    fetch_trending_products noFilters emptyEnv 3 true cbOk = .ok c7wr
      ∧ (c7wr.1.length = min 3 10
        ∧ (c7wr.1.map Product.product_id).Nodup
        ∧ (∀ p ∈ c7wr.1, (15 ≤ p.price ∧ p.price ≤ 150)
            ∧ ∃ i, i < min 3 10 ∧ p.product_id = "DEMO_" ++ pad4 (i + 1))) :=
  ⟨rfl, C7_amended noFilters emptyEnv 3 true cbOk c7wr (by decide) (by decide) (by decide)
    (fun n => ⟨by norm_num [emptyEnv], by norm_num [emptyEnv]⟩) rfl⟩

theorem apiPart_sales_none {fl : Filters} {env : Env} {cb : Callback} {limit : ℕ}
    {p : Product} (hp : p ∈ (apiPart fl env cb limit).1) : p.sales_count = none := by
  unfold apiPart at hp
  split at hp
  · unfold fetch_via_api at hp
    match henv : env.api_response with
    | .error _ => rw [henv] at hp; simp at hp
    | .ok resp =>
      rw [henv] at hp
      simp only at hp
      split at hp
      · exact parse_api_sales_none hp
      · simp at hp
  · simp at hp

/-- C6: the list returned by a fetch call is sorted by the sales signal
(`sales_count`, defaulting to 0 where the key is absent) in descending
order, and ties keep their discovery order: for every key value, the
products of the result with that sales signal form a sublist (order
preserved) of the discovery-order sequence restricted to that signal.  On
the API and demo paths no sort runs, but every product carries the same
(absent) sales signal, so the order is trivially sorted and discovery order
is preserved outright; the scraping paths use Python's stable `sorted` with
`reverse=True`. -/
theorem C6_sorted_stable : ∀ (fl : Filters) (env : Env) (limit : ℕ) (us : Bool)
    (cb : Callback) (r : List Product × List Product),
    fetch_trending_products fl env limit us cb = .ok r →
    r.1.Pairwise salesGE
    ∧ ∀ k : ℤ, ((r.1.filter (fun p => salesKey p == k))).Sublist
        ((discovered fl env limit us cb).filter (fun p => salesKey p == k)) := by
  intro fl env limit us cb r
  refine fetch_elim
    (motive := fun out disc => out = Except.ok r →
      r.1.Pairwise salesGE
      ∧ ∀ k : ℤ, ((r.1.filter (fun p => salesKey p == k))).Sublist
          (disc.filter (fun p => salesKey p == k)))
    ?_ ?_ ?_ ?_ ?_
  · intro hcred hne hok
    rw [Except.ok.injEq] at hok
    subst hok
    exact ⟨pairwise_of_sales_none (fun p hp => apiPart_sales_none hp),
      fun k => List.Sublist.refl _⟩
  · intro hapi0 hne hok
    rw [Except.ok.injEq] at hok
    subst hok
    unfold autoPart at hne ⊢
    unfold autoCollected
    split
    · rename_i hus
      simp only [fetch_highest_bought_auto] at hne ⊢
      split
      · exact ⟨List.Pairwise.nil, fun k => by simp⟩
      · constructor
        · exact List.Pairwise.sublist (List.take_sublist _ _) (sort_by_sales_pairwise _)
        · intro k
          have h1 := (List.take_sublist limit
            (sort_by_sales (fetch_auto_go env.pyHash fl cb limit env.auto_pages
              [] []).1)).filter (fun p => salesKey p == k)
          rw [sort_by_sales_filter] at h1
          exact h1
    · exact ⟨List.Pairwise.nil, fun k => by simp⟩
  · intro hapi0 hauto0 hne hok
    rw [Except.ok.injEq] at hok
    subst hok
    unfold scrPart at hne ⊢
    unfold scrCollected
    split
    · rename_i hus
      simp only [fetch_via_scraping] at hne ⊢
      split
      · exact ⟨List.Pairwise.nil, fun k => by simp⟩
      · have hsub : (((sort_by_sales (scrape_collected env.credentials env.shop_pages
            env.manual_nav env.video_pages limit)).take limit).filter
            (fun p => meets_criteria fl p.price p.commission_rate p.rating)).Sublist
            (sort_by_sales (scrape_collected env.credentials env.shop_pages
              env.manual_nav env.video_pages limit)) :=
          (List.filter_sublist _).trans (List.take_sublist _ _)
        constructor
        · exact List.Pairwise.sublist hsub (sort_by_sales_pairwise _)
        · intro k
          have h1 := hsub.filter (fun p => salesKey p == k)
          rw [sort_by_sales_filter] at h1
          exact h1
    · exact ⟨List.Pairwise.nil, fun k => by simp⟩
  · intro d hapi0 hauto0 hscr0 hd hok
    rw [Except.ok.injEq] at hok
    subst hok
    obtain ⟨hchar, _⟩ := generate_demo_ok_char hd
    constructor
    · refine pairwise_of_sales_none ?_
      intro p hp
      simp only [hchar] at hp
      obtain ⟨i, _, rfl⟩ := List.mem_map.mp hp
      exact demo_sales_none fl env.rand i
    · intro k
      exact List.Sublist.refl _
  · intro hd hok
    simp at hok

/-- The fetch result for the C6 witness: two API items with distinct ids. -/
def c6wr : List Product × List Product :=
  (fetch_trending_products noFilters
    (apiEnv (.ok ⟨some 0, [plainItem, c1item]⟩)) 5 true cbOk).toOption.getD ([], [])

theorem C6_sorted_stable_witness :
    fetch_trending_products noFilters (apiEnv (.ok ⟨some 0, [plainItem, c1item]⟩))
      5 true cbOk = .ok c6wr
    ∧ (c6wr.1.Pairwise salesGE
      ∧ ∀ k : ℤ, ((c6wr.1.filter (fun p => salesKey p == k))).Sublist
          ((discovered noFilters (apiEnv (.ok ⟨some 0, [plainItem, c1item]⟩)) 5 true
            cbOk).filter (fun p => salesKey p == k))) :=
  ⟨rfl, C6_sorted_stable noFilters (apiEnv (.ok ⟨some 0, [plainItem, c1item]⟩)) 5 true
    cbOk c6wr rfl⟩

/-- C10: the caller-supplied callback cannot affect a fetch: every call site
wraps it in `try/except: pass` (modelled by discarding the `Except` outcome),
so a callback that raises on some or all products yields exactly the same
fetch outcome — same returned list, same reported sequence, no propagated
exception — as a callback that always succeeds. -/
theorem C10_callback_swallowed : ∀ (fl : Filters) (env : Env) (limit : ℕ) (us : Bool)
    (cb : Callback),
    fetch_trending_products fl env limit us cb
      = fetch_trending_products fl env limit us (fun _ => Except.ok ()) := by
  intro fl env limit us cb
  have hauto : autoPart fl env cb limit us
      = autoPart fl env (fun _ => Except.ok ()) limit us := by
    unfold autoPart
    split
    · exact fetch_auto_cb cb (fun _ => Except.ok ()) env.auto_pages limit
    · rfl
  have hapi : apiPart fl env cb limit = apiPart fl env (fun _ => Except.ok ()) limit := rfl
  have hscr : scrPart fl env cb limit us
      = scrPart fl env (fun _ => Except.ok ()) limit us := rfl
  have hdemo := generate_demo_cb fl env.rand cb (fun _ => Except.ok ()) limit
  simp only [fetch_trending_products, hapi, hauto, hscr, hdemo]
